import Mathlib

/-!
# Reviewer-assignment service

A shallow embedding of `internal/domain` and `internal/service/service.go`:
the data model, the storage interfaces the service consumes, the two pure
helpers (`filterUsersExclude`, `chooseReviewers`) and the transactional
operations built on them; and of `internal/storage/pgx`: the transaction manager
and the writing methods `Create` and `CreateWithMembers` of the storage adapter.

Conventions of the embedding:

* a Go `error` is an `Option Err` (`none` is `nil`); a `(T, error)` result is an
  `Except Err T`;
* a `*time.Time` is an `Option Time`;
* a storage method is a function on an abstract store state `σ` that returns its
  result together with the next state;
* the clock (`time.Now().UTC()`) and the random source (`rand.Perm`) are explicit
  inputs of the operations that read them;
* a run-time panic (index out of range) is the outer `none` of an `Option`.
-/

namespace Avito

/-! ## internal/domain -/

/-- Go errors: the six sentinel values of `domain/errors.go`, any other error
value, an error wrapping another one (`fmt.Errorf("...: %w", inner)`), and a
`*pgconn.PgError` with its SQLSTATE code. -/
inductive Err where
  | ErrTeamExists
  | ErrPRExists
  | ErrPRMerged
  | ErrNotAssigned
  | ErrNoCandidate
  | ErrNotFound
  | other (msg : String)
  | wrapped (msg : String) (inner : Err)
  | pgError (code : String)
  deriving DecidableEq, Repr

/-- The library function `errors.Is`: the error or one in its unwrap chain is the target. -/
def errorsIs : Err → Err → Bool
  | .wrapped msg inner, target =>
    decide (Err.wrapped msg inner = target) || errorsIs inner target
  | e, target => decide (e = target)

/-- A point in time, as a count of nanoseconds. -/
abbrev Time := Nat

structure User where
  ID : String
  Name : String
  TeamName : String
  IsActive : Bool
  deriving DecidableEq, Repr

structure Team where
  ID : String
  Name : String
  Members : List User
  deriving DecidableEq, Repr

/-- In Go `type PullRequestStatus string`. -/
abbrev PullRequestStatus := String

def PRStatusOpen : PullRequestStatus := "OPEN"

def PRStatusMerged : PullRequestStatus := "MERGED"

structure PullRequest where
  ID : String
  Name : String
  AuthorID : String
  Status : PullRequestStatus
  AssignedReviewers : List String
  CreatedAt : Option Time
  MergedAt : Option Time
  deriving DecidableEq, Repr

/-- The zero value `domain.PullRequest{}`. -/
def PullRequest.zero : PullRequest :=
  { ID := "", Name := "", AuthorID := "", Status := "", AssignedReviewers := [],
    CreatedAt := none, MergedAt := none }

/-! ## internal/service: pure helpers -/

/-- The set `excludesSet` of `filterUsersExclude`, a `map[string]struct{}`, as its
membership function; the loop inserts every id of `excludeIDs`. -/
def buildExcludesSet (excludeIDs : List String) : String → Bool :=
  excludeIDs.foldl (fun set id => fun key => if key = id then true else set key)
    (fun _ => false)

def filterUsersExclude (users : List User) (excludeIDs : List String) : List User :=
  if excludeIDs.length = 0 then users
  else
    let excludesSet := buildExcludesSet excludeIDs
    users.foldl (fun out user => if excludesSet user.ID then out else out ++ [user]) []

/-- The second loop of `chooseReviewers`: walk the permutation, stop as soon as
`quantity` ids are collected; `candidates[randIndex]` out of range panics. -/
def chooseLoop (candidates : List User) (quantity : Int) :
    List Nat → List String → Option (List String)
  | [], outIDs => some outIDs
  | randIndex :: rest, outIDs =>
    if (outIDs.length : Int) = quantity then some outIDs
    else
      match candidates[randIndex]? with
      | none => none
      | some user => chooseLoop candidates quantity rest (outIDs ++ [user.ID])

/-- The function `chooseReviewers`; `randPerm` is `rand.Perm`. -/
def chooseReviewers (randPerm : Nat → List Nat) (candidates : List User) (quantity : Int) :
    Option (List String) :=
  if candidates.length = 0 ∨ quantity ≤ 0 then some []
  else if quantity ≥ (candidates.length : Int) then
    some (candidates.foldl (fun outIDs user => outIDs ++ [user.ID]) [])
  else
    let perm := randPerm candidates.length
    chooseLoop candidates quantity perm []

/-- What `rand.Perm(n)` may return: a permutation of `0, ..., n-1`. -/
def ValidRand (randPerm : Nat → List Nat) : Prop :=
  ∀ n, List.Perm (randPerm n) (List.range n)

/-! ## internal/service: collaborators -/

/-- A `context.Context`, reduced to what the code reads from it: the transaction
stored under `pgxTxKey`, if any. -/
structure Context where
  txValue : Option Nat
  deriving DecidableEq, Repr

def Context.Background : Context := { txValue := none }

/-- The interface `TeamStorage`. -/
structure TeamStorage (σ : Type) where
  TeamExists : Context → String → σ → Except Err Bool × σ
  CreateWithMembers : Context → Team → σ → Option Err × σ
  GetWithMembers : Context → String → σ → Except Err Team × σ

/-- The interface `UserStorage`. -/
structure UserStorage (σ : Type) where
  GetUserByID : Context → String → σ → Except Err User × σ
  SetIsActive : Context → String → Bool → σ → Option Err × σ
  ListActiveUserByTeam : Context → String → σ → Except Err (List User) × σ

/-- The interface `PullRequestStorage`. -/
structure PullRequestStorage (σ : Type) where
  ListByReviewer : Context → String → σ → Except Err (List PullRequest) × σ
  GetPullRequestByID : Context → String → σ → Except Err PullRequest × σ
  GetPullRequestByIDForUpdate : Context → String → σ → Except Err PullRequest × σ
  Create : Context → PullRequest → σ → Option Err × σ
  UpdateStatusMerged : Context → String → Option Time → σ → Option Err × σ
  ReplaceReviewer : Context → String → String → String → σ → Option Err × σ

/-- The interface `txManager`. The closure handed to `WithTx` works on the store
state and on the variables `ρ` it captures from the enclosing function; it
returns its error, or `none` when it panics. -/
structure txManager (σ : Type) where
  WithTx : {ρ : Type} → Context → (Context → ρ × σ → Option (Option Err × (ρ × σ))) →
    ρ × σ → Option (Option Err × (ρ × σ))

/-- The test double `mockTxManager` of `service_test.go`: `return fn(ctx)`. -/
def mockTxManager {σ : Type} : txManager σ :=
  { WithTx := fun ctx fn s => fn ctx s }

structure Service (σ : Type) where
  teamStore : TeamStorage σ
  userStore : UserStorage σ
  prStore : PullRequestStorage σ
  tx : txManager σ

def NewService {σ : Type} (teamStore : TeamStorage σ) (userStore : UserStorage σ)
    (prStore : PullRequestStorage σ) (tx : txManager σ) : Service σ :=
  { teamStore := teamStore, userStore := userStore, prStore := prStore, tx := tx }

/-! ## internal/service: operations -/

/-- The method `Service.CreateTeam`. The closure assigns no captured variable. -/
def Service.CreateTeam {σ : Type} (s : Service σ) (ctx : Context) (team : Team) (st : σ) :
    Option (Except Err Team × σ) :=
  match s.tx.WithTx ctx (fun ctx (captured, st) =>
      match s.teamStore.TeamExists ctx team.Name st with
      | (.error err, st) => some (some err, (captured, st))
      | (.ok exists_, st) =>
        if exists_ then some (some Err.ErrTeamExists, (captured, st))
        else
          match s.teamStore.CreateWithMembers ctx team st with
          | (some err, st) => some (some err, (captured, st))
          | (none, st) => some (none, (captured, st))) ((), st) with
  | none => none
  | some (some err, (_, st)) => some (.error err, st)
  | some (none, (_, st)) => some (s.teamStore.GetWithMembers ctx team.Name st)

/-- The method `Service.SetIsActive`. -/
def Service.SetIsActive {σ : Type} (s : Service σ) (ctx : Context) (userID : String)
    (isActive : Bool) (st : σ) : Except Err User × σ :=
  match s.userStore.GetUserByID ctx userID st with
  | (.error err, st) => (.error err, st)
  | (.ok user, st) =>
    match s.userStore.SetIsActive ctx userID isActive st with
    | (some err, st) => (.error err, st)
    | (none, st) => (.ok { user with IsActive := isActive }, st)

/-- The method `Service.MergePullRequest`; `now` is `time.Now().UTC()`. The
captured variable is `result`. -/
def Service.MergePullRequest {σ : Type} (s : Service σ) (now : Time) (ctx : Context)
    (prID : String) (st : σ) : Option ((PullRequest × Option Err) × σ) :=
  let result : PullRequest := PullRequest.zero
  match s.tx.WithTx ctx (fun ctx (result, st) =>
      match s.prStore.GetPullRequestByIDForUpdate ctx prID st with
      | (.error err, st) => some (some err, (result, st))
      | (.ok pr, st) =>
        if pr.Status = PRStatusMerged then
          some (none, (pr, st))
        else
          match s.prStore.UpdateStatusMerged ctx prID (some now) st with
          | (some err, st) => some (some err, (result, st))
          | (none, st) =>
            let pr := { pr with Status := PRStatusMerged }
            let pr := { pr with MergedAt := some now }
            some (none, (pr, st))) (result, st) with
  | none => none
  | some (err, (result, st)) => some ((result, err), st)

/-- The method `Service.CreatePullRequest`; `now` is `time.Now().UTC()` and
`randPerm` is `rand.Perm`. The captured variable is `created`. -/
def Service.CreatePullRequest {σ : Type} (s : Service σ) (now : Time)
    (randPerm : Nat → List Nat) (ctx : Context) (prID prName authorID : String) (st : σ) :
    Option ((PullRequest × Option Err) × σ) :=
  let created : PullRequest := PullRequest.zero
  match s.tx.WithTx ctx (fun ctx (created, st) =>
      match s.prStore.GetPullRequestByID ctx prID st with
      | (.ok _, st) => some (some Err.ErrPRExists, (created, st))
      | (.error err, st) =>
        if !errorsIs err Err.ErrNotFound then some (some err, (created, st))
        else
          match s.userStore.GetUserByID ctx authorID st with
          | (.error err, st) => some (some err, (created, st))
          | (.ok author, st) =>
            match s.userStore.ListActiveUserByTeam ctx author.TeamName st with
            | (.error err, st) => some (some err, (created, st))
            | (.ok candidates, st) =>
              let candidates := filterUsersExclude candidates [authorID]
              match chooseReviewers randPerm candidates 2 with
              | none => none
              | some reviewers =>
                let pr : PullRequest :=
                  { ID := prID
                    Name := prName
                    AuthorID := authorID
                    Status := PRStatusOpen
                    AssignedReviewers := reviewers
                    CreatedAt := some now
                    MergedAt := none }
                match s.prStore.Create ctx pr st with
                | (some err, st) => some (some err, (created, st))
                | (none, st) => some (none, (pr, st))) (created, st) with
  | none => none
  | some (err, (created, st)) => some ((created, err), st)

/-- The loop closing `ReassignReviewer`: overwrite the first entry equal to
`oldUserID` with `newID`, then `break`. -/
def replaceLoop (oldUserID newID : String) : List String → List String
  | [] => []
  | id :: rest =>
    if id = oldUserID then newID :: rest else id :: replaceLoop oldUserID newID rest

/-- The method `Service.ReassignReviewer`; `randPerm` is `rand.Perm`. The captured
variables are `result` and `replacedBy`. -/
def Service.ReassignReviewer {σ : Type} (s : Service σ) (randPerm : Nat → List Nat)
    (ctx : Context) (prID oldUserID : String) (st : σ) :
    Option ((PullRequest × String × Option Err) × σ) :=
  let result : PullRequest := PullRequest.zero
  let replacedBy : String := ""
  match s.tx.WithTx ctx (fun ctx (captured, st) =>
      match s.prStore.GetPullRequestByIDForUpdate ctx prID st with
      | (.error err, st) => some (some err, (captured, st))
      | (.ok pr, st) =>
        if pr.Status = PRStatusMerged then some (some Err.ErrPRMerged, (captured, st))
        else if !pr.AssignedReviewers.contains oldUserID then
          some (some Err.ErrNotAssigned, (captured, st))
        else
          match s.userStore.GetUserByID ctx oldUserID st with
          | (.error err, st) => some (some err, (captured, st))
          | (.ok oldUser, st) =>
            match s.userStore.ListActiveUserByTeam ctx oldUser.TeamName st with
            | (.error err, st) => some (some err, (captured, st))
            | (.ok candidates, st) =>
              let exclude := [oldUserID, pr.AuthorID] ++ pr.AssignedReviewers
              let candidates := filterUsersExclude candidates exclude
              if candidates.length = 0 then some (some Err.ErrNoCandidate, (captured, st))
              else
                match chooseReviewers randPerm candidates 1 with
                | none => none
                | some [] => none
                | some (newReviewer :: _) =>
                  let newID := newReviewer
                  match s.prStore.ReplaceReviewer ctx prID oldUserID newID st with
                  | (some err, st) => some (some err, (captured, st))
                  | (none, st) =>
                    let pr :=
                      { pr with
                        AssignedReviewers := replaceLoop oldUserID newID pr.AssignedReviewers }
                    some (none, ((pr, newID), st))) ((result, replacedBy), st) with
  | none => none
  | some (err, ((result, replacedBy), st)) => some ((result, replacedBy, err), st)

/-! ## internal/storage/pgx

The database driver is a collaborator: `Pool` is what the code calls on
`pgxpool.Pool` and on the `pgx.Tx` it hands out. A transaction is named by a number. -/

/-- The library call `errors.As(err, &pgErr)` with `pgErr *pgconn.PgError`: the code of
the first such error in the unwrap chain. -/
def errorsAsPgError : Err → Option String
  | .pgError code => some code
  | .wrapped _ inner => errorsAsPgError inner
  | _ => none

/-- An argument of a statement. -/
inductive Arg where
  | str (s : String)
  | bool (b : Bool)
  | time (t : Time)
  | null
  deriving DecidableEq, Repr

/-- The `execer` a statement runs on: the pool, or a transaction. -/
inductive Executor where
  | pool
  | tx (id : Nat)
  deriving DecidableEq, Repr

/-- The isolation level `pgx.RepeatableRead`. -/
def RepeatableRead : String := "repeatable read"

/-- The driver: `BeginTx` on the pool, `Commit` and `Rollback` on a transaction, and
`Exec` on either, which returns the number of rows affected. -/
structure Pool (σ : Type) where
  BeginTx : Context → String → σ → Except Err Nat × σ
  Commit : Nat → Context → σ → Option Err × σ
  Rollback : Nat → Context → σ → Option Err × σ
  Exec : Executor → Context → String → List Arg → σ → Except Err Nat × σ

def contextWithTx (ctx : Context) (tx : Nat) : Context :=
  { ctx with txValue := some tx }

def TxFromContext (ctx : Context) : Option Nat :=
  ctx.txValue

structure TxManager (σ : Type) where
  db : Pool σ

def NewTxManager {σ : Type} (pool : Pool σ) : TxManager σ :=
  { db := pool }

/-- The method `TxManager.WithTx`. The deferred `Rollback` runs on every return after
`BeginTx` succeeded, also after `Commit`; its error is dropped. When `fn` panics the
panic goes on to the caller. -/
def TxManager.WithTx {σ ρ : Type} (m : TxManager σ) (ctx : Context)
    (fn : Context → ρ × σ → Option (Option Err × (ρ × σ))) (s : ρ × σ) :
    Option (Option Err × (ρ × σ)) :=
  match TxFromContext ctx with
  | some _ => fn ctx s
  | none =>
    match m.db.BeginTx ctx RepeatableRead s.2 with
    | (.error err, st) => some (some err, (s.1, st))
    | (.ok tx, st) =>
      let ctx := contextWithTx ctx tx
      match fn ctx (s.1, st) with
      | none => none
      | some (some err, (captured, st)) =>
        some (some err, (captured, (m.db.Rollback tx ctx st).2))
      | some (none, (captured, st)) =>
        match m.db.Commit tx ctx st with
        | (err, st) => some (err, (captured, (m.db.Rollback tx ctx st).2))

/-- The `TxManager` as the `txManager` the service asks for. -/
def TxManager.txManager {σ : Type} (m : TxManager σ) : txManager σ :=
  { WithTx := fun ctx fn s => m.WithTx ctx fn s }

structure Storage (σ : Type) where
  pool : Pool σ
  txManager : TxManager σ

/-- The constructor `NewPgxStorage`, from the pool it opens. -/
def NewPgxStorage {σ : Type} (pool : Pool σ) : Storage σ :=
  { pool := pool, txManager := NewTxManager pool }

/-- The method `Storage.WithTx` of `storage.go`. -/
def Storage.WithTx {σ ρ : Type} (s : Storage σ) (ctx : Context)
    (fn : Context → ρ × σ → Option (Option Err × (ρ × σ))) (st : ρ × σ) :
    Option (Option Err × (ρ × σ)) :=
  s.txManager.WithTx ctx fn st

/-- The `Storage` as the `txManager` the service asks for. -/
def Storage.asTxManager {σ : Type} (s : Storage σ) : Avito.txManager σ :=
  { WithTx := fun ctx fn st => s.WithTx ctx fn st }

def Storage.getExecutor {σ : Type} (_ : Storage σ) (ctx : Context) : Executor :=
  match TxFromContext ctx with
  | some tx => Executor.tx tx
  | none => Executor.pool

/-- The statement `queryTeam` of `CreateWithMembers`. -/
def queryTeam : String := "insert into teams (name) values ($1);"

/-- The statement `queryUser` of `CreateWithMembers`. -/
def queryUser : String :=
  "insert into users (id, name, team_name, is_active) values ($1, $2, $3, $4);"

/-- The statement `queryCreatePR` of `Create`, white space collapsed. -/
def queryCreatePR : String :=
  "INSERT INTO pull_requests ( id, name, author_id, status, created_at, merged_at ) VALUES ($1, $2, $3, $4, $5, $6);"

/-- The statement `queryInsertReviewers` of `Create`, white space collapsed. -/
def queryInsertReviewers : String :=
  "INSERT INTO pull_request_reviewers (pull_request_id, user_id) VALUES ($1, $2);"

/-- The loop of `CreateWithMembers` over `team.Members`. -/
def insertMembers {σ : Type} (s : Storage σ) (ctx : Context) (teamName : String) :
    List User → σ → Option Err × σ
  | [], st => (none, st)
  | member :: rest, st =>
    match s.pool.Exec (s.getExecutor ctx) ctx queryUser
        [.str member.ID, .str member.Name, .str teamName, .bool member.IsActive] st with
    | (.error err, st) => (some err, st)
    | (.ok _, st) => insertMembers s ctx teamName rest st

/-- The method `Storage.CreateWithMembers` of `team.go`. -/
def Storage.CreateWithMembers {σ : Type} (s : Storage σ) (ctx : Context) (team : Team)
    (st : σ) : Option Err × σ :=
  match s.pool.Exec (s.getExecutor ctx) ctx queryTeam [.str team.Name] st with
  | (.error err, st) => (some err, st)
  | (.ok _, st) => insertMembers s ctx team.Name team.Members st

/-- The loop of `Create` over `pr.AssignedReviewers`. -/
def insertReviewers {σ : Type} (s : Storage σ) (ctx : Context) (prID : String) :
    List String → σ → Option Err × σ
  | [], st => (none, st)
  | reviewerID :: rest, st =>
    match s.pool.Exec (s.getExecutor ctx) ctx queryInsertReviewers
        [.str prID, .str reviewerID] st with
    | (.error err, st) => (some err, st)
    | (.ok _, st) => insertReviewers s ctx prID rest st

/-- The method `Storage.Create` of `pull-request.go`. -/
def Storage.Create {σ : Type} (s : Storage σ) (ctx : Context) (pr : PullRequest) (st : σ) :
    Option Err × σ :=
  match pr.CreatedAt with
  | none => (some (Err.other "Create: pr.CreatedAt is nil"), st)
  | some createdAt =>
    let mergedAt : Arg :=
      match pr.MergedAt with
      | some t => .time t
      | none => .null
    match s.pool.Exec (s.getExecutor ctx) ctx queryCreatePR
        [.str pr.ID, .str pr.Name, .str pr.AuthorID, .str pr.Status, .time createdAt,
          mergedAt] st with
    | (.error err, st) =>
      match errorsAsPgError err with
      | some code => if code = "23505" then (some Err.ErrPRExists, st) else (some err, st)
      | none => (some err, st)
    | (.ok _, st) => insertReviewers s ctx pr.ID pr.AssignedReviewers st

/-! ## internal/transport/http -/

/-- The method `Error()` of an error: the texts of `domain/errors.go` for the sentinel
values, the formatted text for the others; for a `*pgconn.PgError` the library's
`Severity + ": " + Message + " (SQLSTATE " + Code + ")"` with the severity and the
message, which the embedding does not carry, left empty. -/
def Err.Error : Err → String
  | .ErrTeamExists => "team already exists"
  | .ErrPRExists => "pr already exists"
  | .ErrPRMerged => "pr merged"
  | .ErrNotAssigned => "reviewer not assigned"
  | .ErrNoCandidate => "no candidate"
  | .ErrNotFound => "not found"
  | .other msg => msg
  | .wrapped msg _ => msg
  | .pgError code => "" ++ ": " ++ "" ++ " (SQLSTATE " ++ code ++ ")"

/-- The constant `http.StatusBadRequest`. -/
def StatusBadRequest : Nat := 400

/-- The constant `http.StatusNotFound`. -/
def StatusNotFound : Nat := 404

/-- The constant `http.StatusConflict`. -/
def StatusConflict : Nat := 409

/-- The constant `http.StatusInternalServerError`. -/
def StatusInternalServerError : Nat := 500

structure errorBody where
  Code : String
  Message : String
  deriving DecidableEq, Repr

structure ErrorResponse where
  Error : errorBody
  deriving DecidableEq, Repr

/-- The `switch` of `mappingDomainErrors`: the first case whose `errors.Is` holds
sets `status` and `code`. -/
def mappingSwitch (err : Err) : Nat × String :=
  if errorsIs err Err.ErrTeamExists then (StatusBadRequest, "TEAM_EXISTS")
  else if errorsIs err Err.ErrPRExists then (StatusConflict, "PR_EXISTS")
  else if errorsIs err Err.ErrPRMerged then (StatusConflict, "PR_MERGED")
  else if errorsIs err Err.ErrNotAssigned then (StatusConflict, "NOT_ASSIGNED")
  else if errorsIs err Err.ErrNoCandidate then (StatusConflict, "NO_CANDIDATE")
  else if errorsIs err Err.ErrNotFound then (StatusNotFound, "NOT_FOUND")
  else (StatusInternalServerError, "INTERNAL")

/-- The function `mappingDomainErrors` of `dto-mapper.go`. -/
def mappingDomainErrors (err : Err) : Nat × ErrorResponse :=
  let (status, code) := mappingSwitch err
  (status, { Error := { Code := code, Message := err.Error } })

/-! ## Recording stores

The calls a run makes on its stores are observed the way the tests observe them,
by a store that records each call before delegating to the store it wraps. -/

/-- One call on a storage interface or on the driver, with its arguments. -/
inductive Call where
  | TeamExists (teamName : String)
  | CreateWithMembers (team : Team)
  | GetWithMembers (teamName : String)
  | GetUserByID (userID : String)
  | SetIsActive (userID : String) (isActive : Bool)
  | ListActiveUserByTeam (teamName : String)
  | ListByReviewer (userID : String)
  | GetPullRequestByID (pullRequestID : String)
  | GetPullRequestByIDForUpdate (pullRequestID : String)
  | Create (pullRequest : PullRequest)
  | UpdateStatusMerged (pullRequestID : String) (mergedAt : Option Time)
  | ReplaceReviewer (pullRequestID oldID newID : String)
  | BeginTx (isoLevel : String)
  | Commit (tx : Nat)
  | Rollback (tx : Nat)
  | Exec (executor : Executor) (query : String) (args : List Arg)
  deriving DecidableEq, Repr

/-- Run a store method on the wrapped state and append the call to the record. -/
def recordCall {σ α : Type} (call : Call) (method : σ → α × σ) (st : σ × List Call) :
    α × (σ × List Call) :=
  ((method st.1).1, ((method st.1).2, st.2 ++ [call]))

def TeamStorage.recording {σ : Type} (t : TeamStorage σ) : TeamStorage (σ × List Call) :=
  { TeamExists := fun ctx teamName => recordCall (.TeamExists teamName) (t.TeamExists ctx teamName)
    CreateWithMembers := fun ctx team =>
      recordCall (.CreateWithMembers team) (t.CreateWithMembers ctx team)
    GetWithMembers := fun ctx teamName =>
      recordCall (.GetWithMembers teamName) (t.GetWithMembers ctx teamName) }

def UserStorage.recording {σ : Type} (u : UserStorage σ) : UserStorage (σ × List Call) :=
  { GetUserByID := fun ctx userID => recordCall (.GetUserByID userID) (u.GetUserByID ctx userID)
    SetIsActive := fun ctx userID isActive =>
      recordCall (.SetIsActive userID isActive) (u.SetIsActive ctx userID isActive)
    ListActiveUserByTeam := fun ctx teamName =>
      recordCall (.ListActiveUserByTeam teamName) (u.ListActiveUserByTeam ctx teamName) }

def PullRequestStorage.recording {σ : Type} (p : PullRequestStorage σ) :
    PullRequestStorage (σ × List Call) :=
  { ListByReviewer := fun ctx userID =>
      recordCall (.ListByReviewer userID) (p.ListByReviewer ctx userID)
    GetPullRequestByID := fun ctx id =>
      recordCall (.GetPullRequestByID id) (p.GetPullRequestByID ctx id)
    GetPullRequestByIDForUpdate := fun ctx id =>
      recordCall (.GetPullRequestByIDForUpdate id) (p.GetPullRequestByIDForUpdate ctx id)
    Create := fun ctx pr => recordCall (.Create pr) (p.Create ctx pr)
    UpdateStatusMerged := fun ctx id mergedAt =>
      recordCall (.UpdateStatusMerged id mergedAt) (p.UpdateStatusMerged ctx id mergedAt)
    ReplaceReviewer := fun ctx id oldID newID =>
      recordCall (.ReplaceReviewer id oldID newID) (p.ReplaceReviewer ctx id oldID newID) }

def Pool.recording {σ : Type} (p : Pool σ) : Pool (σ × List Call) :=
  { BeginTx := fun ctx isoLevel => recordCall (.BeginTx isoLevel) (p.BeginTx ctx isoLevel)
    Commit := fun tx ctx => recordCall (.Commit tx) (p.Commit tx ctx)
    Rollback := fun tx ctx => recordCall (.Rollback tx) (p.Rollback tx ctx)
    Exec := fun executor ctx query args =>
      recordCall (.Exec executor query args) (p.Exec executor ctx query args) }

/-- The service of the tests: recording stores and the pass-through transaction manager. -/
def recordingService {σ : Type} (teamStore : TeamStorage σ) (userStore : UserStorage σ)
    (prStore : PullRequestStorage σ) : Service (σ × List Call) :=
  NewService teamStore.recording userStore.recording prStore.recording mockTxManager

/-- The service with the transaction manager `cmd/app/main.go` gives it, the `Storage`
over the pool, on recording stores; the calls on the driver are recorded as well. -/
def pgxService {σ : Type} (teamStore : TeamStorage σ) (userStore : UserStorage σ)
    (prStore : PullRequestStorage σ) (pool : Pool σ) : Service (σ × List Call) :=
  NewService teamStore.recording userStore.recording prStore.recording
    (NewPgxStorage pool.recording).asTxManager

/-! ## Definitions used by the statements -/

/-- The id read at an index of the candidate list, `""` past its end. -/
def idAt (candidates : List User) (i : Nat) : String :=
  (candidates.map (fun u => u.ID)).getD i ""

/-- The record `CreatePullRequest` hands to the store. -/
def newPullRequest (now : Time) (prID prName authorID : String) (reviewers : List String) :
    PullRequest :=
  { ID := prID, Name := prName, AuthorID := authorID, Status := PRStatusOpen,
    AssignedReviewers := reviewers, CreatedAt := some now, MergedAt := none }

/-- The contract of a pull-request store that merging relies on: a locked read returns
the same record when repeated, and a successful `UpdateStatusMerged` of a record just
read shows in the next locked read as status `MERGED` with the merge time written. -/
structure MergeReflected {σ : Type} (p : PullRequestStorage σ) : Prop where
  read_again : ∀ ctx id pr st0 st1,
    p.GetPullRequestByIDForUpdate ctx id st0 = (.ok pr, st1) →
    ∃ st2, p.GetPullRequestByIDForUpdate ctx id st1 = (.ok pr, st2)
  update_read : ∀ ctx id pr t st0 st1 st2,
    p.GetPullRequestByIDForUpdate ctx id st0 = (.ok pr, st1) →
    p.UpdateStatusMerged ctx id (some t) st1 = (none, st2) →
    ∃ pr2 st3, p.GetPullRequestByIDForUpdate ctx id st2 = (.ok pr2, st3) ∧
      pr2.Status = PRStatusMerged ∧ pr2.MergedAt = some t

/-- The calls in `after` that are not in `before` are statements run on the
transaction `tx`. -/
def OnlyOnTx (tx : Nat) (before after : List Call) : Prop :=
  ∀ c ∈ after, c ∈ before ∨ ∃ query args, c = Call.Exec (Executor.tx tx) query args

/-- The six error values declared in `domain/errors.go`. -/
def domainErrors : List Err :=
  [Err.ErrTeamExists, Err.ErrPRExists, Err.ErrPRMerged, Err.ErrNotAssigned,
    Err.ErrNoCandidate, Err.ErrNotFound]

/-! ## An in-memory store

A concrete implementation of the three storage interfaces, with lists for tables; the
statements below are instantiated on it. -/

/-- An in-memory implementation of the storage interfaces: the rows it holds. -/
structure MemStore where
  teams : List Team
  users : List User
  pullRequests : List PullRequest
  deriving DecidableEq, Repr

def memTeamStore : TeamStorage MemStore :=
  { TeamExists := fun _ teamName st => (.ok (st.teams.any (fun t => t.Name == teamName)), st)
    CreateWithMembers := fun _ team st =>
      if st.teams.any (fun t => t.Name == team.Name) then (some Err.ErrTeamExists, st)
      else (none, { st with teams := st.teams ++ [team], users := st.users ++ team.Members })
    GetWithMembers := fun _ teamName st =>
      match st.teams.find? (fun t => t.Name == teamName) with
      | some team => (.ok team, st)
      | none => (.error Err.ErrNotFound, st) }

def memUserStore : UserStorage MemStore :=
  { GetUserByID := fun _ userID st =>
      match st.users.find? (fun u => u.ID == userID) with
      | some user => (.ok user, st)
      | none => (.error Err.ErrNotFound, st)
    SetIsActive := fun _ userID isActive st =>
      if st.users.any (fun u => u.ID == userID) then
        (none, { st with users := st.users.map (fun u =>
          if u.ID == userID then { u with IsActive := isActive } else u) })
      else (some Err.ErrNotFound, st)
    ListActiveUserByTeam := fun _ teamName st =>
      (.ok (st.users.filter (fun u => u.TeamName == teamName && u.IsActive)), st) }

def memLookup (st : MemStore) (pullRequestID : String) : Except Err PullRequest × MemStore :=
  match st.pullRequests.find? (fun p => p.ID == pullRequestID) with
  | some pr => (.ok pr, st)
  | none => (.error Err.ErrNotFound, st)

def memPRStore : PullRequestStorage MemStore :=
  { ListByReviewer := fun _ userID st =>
      (.ok (st.pullRequests.filter (fun p => p.AssignedReviewers.contains userID)), st)
    GetPullRequestByID := fun _ pullRequestID st => memLookup st pullRequestID
    GetPullRequestByIDForUpdate := fun _ pullRequestID st => memLookup st pullRequestID
    Create := fun _ pullRequest st =>
      if st.pullRequests.any (fun p => p.ID == pullRequest.ID) then (some Err.ErrPRExists, st)
      else (none, { st with pullRequests := st.pullRequests ++ [pullRequest] })
    UpdateStatusMerged := fun _ pullRequestID mergedAt st =>
      match mergedAt with
      | none => (some (Err.other "mergedAt is nil in UpdateStatusMerged"), st)
      | some t =>
        (none, { st with pullRequests := st.pullRequests.map (fun p =>
          if p.ID == pullRequestID then
            { p with Status := PRStatusMerged, MergedAt := some t }
          else p) })
    ReplaceReviewer := fun _ pullRequestID oldID newID st =>
      if st.pullRequests.any (fun p =>
          p.ID == pullRequestID && p.AssignedReviewers.contains oldID) then
        (none, { st with pullRequests := st.pullRequests.map (fun p =>
          if p.ID == pullRequestID then
            { p with AssignedReviewers := p.AssignedReviewers.erase oldID ++ [newID] }
          else p) })
      else (some Err.ErrNotAssigned, st) }

/-- An in-memory database behind the driver: the statements committed, and those of
the open transaction, if one is open. A statement repeating one already held violates
uniqueness. -/
structure MemDB where
  rows : List (String × List Arg)
  pending : Option (List (String × List Arg))
  deriving DecidableEq, Repr

def memPool : Pool MemDB :=
  { BeginTx := fun _ _ db => (.ok 1, { db with pending := some [] })
    Commit := fun _ _ db =>
      match db.pending with
      | some written => (none, { rows := db.rows ++ written, pending := none })
      | none => (some (Err.other "tx is closed"), db)
    Rollback := fun _ _ db =>
      match db.pending with
      | some _ => (none, { db with pending := none })
      | none => (some (Err.other "tx is closed"), db)
    Exec := fun executor _ query args db =>
      if (query, args) ∈ db.rows ++ db.pending.getD [] then
        (.error (Err.pgError "23505"), db)
      else
        match executor with
        | .pool => (.ok 1, { db with rows := db.rows ++ [(query, args)] })
        | .tx _ =>
          match db.pending with
          | some written => (.ok 1, { db with pending := some (written ++ [(query, args)]) })
          | none => (.error (Err.other "tx is closed"), db) }

/-! ## Sample data -/

/-- An active member of team `team-A`. -/
def member (id : String) : User :=
  { ID := id, Name := id, TeamName := "team-A", IsActive := true }

/-- An open pull request `p1` by `a1`, reviewed by `a2` and `a3`. -/
def openPR : PullRequest :=
  { ID := "p1", Name := "title", AuthorID := "a1", Status := PRStatusOpen,
    AssignedReviewers := ["a2", "a3"], CreatedAt := some 100, MergedAt := none }

/-- The pull request `p1` once merged at time 200. -/
def mergedPR : PullRequest :=
  { openPR with Status := PRStatusMerged, MergedAt := some 200 }

/-- A store holding the given members of `team-A` and the given pull requests. -/
def storeOf (ids : List String) (prs : List PullRequest) : MemStore :=
  { teams := [], users := ids.map member, pullRequests := prs }

/-- A random source returning the identity permutation. -/
def identityPerm (n : Nat) : List Nat := List.range n

/-- The team `team-A` with members `a1` and `a2`. -/
def teamA : Team :=
  { ID := "", Name := "team-A", Members := [member "a1", member "a2"] }

/-- A store holding `team-A` and its members. -/
def storeWithTeam : MemStore :=
  { teams := [teamA], users := teamA.Members, pullRequests := [] }

/-- A pull-request store whose lookup fails for a reason other than absence. -/
def unreachablePRStore : PullRequestStorage MemStore :=
  { memPRStore with
    GetPullRequestByID := fun _ _ st => (.error (Err.other "connection refused"), st) }

/-- A context inside the transaction 7. -/
def txContext : Context := contextWithTx Context.Background 7

/-- The record `p1` with the reviewer `a2` listed twice. -/
def dupPR : PullRequest :=
  { openPR with AssignedReviewers := ["a2", "a2"] }

/-- The empty database. -/
def emptyDB : MemDB := { rows := [], pending := none }

/-- A database that holds the row of team `team-A`. -/
def dbWithTeam : MemDB := { rows := [(queryTeam, [.str "team-A"])], pending := none }

/-- A database that holds the row of the pull request `p1`. -/
def dbWithPR : MemDB :=
  { rows := [(queryCreatePR,
      [.str "p1", .str "title", .str "a1", .str "OPEN", .time 100, .null])],
    pending := none }

/-- The statement that inserts the pull request `p1`. -/
def insertP1 : String × List Arg :=
  (queryCreatePR, [.str "p1", .str "title", .str "a1", .str "OPEN", .time 100, .null])

/-- The statement that inserts `a2` as a reviewer of `p1`. -/
def insertP1A2 : String × List Arg :=
  (queryInsertReviewers, [.str "p1", .str "a2"])

/-- A driver over the in-memory store: it opens the transaction 1 and commits it. -/
def storePool : Pool MemStore :=
  { BeginTx := fun _ _ st => (.ok 1, st)
    Commit := fun _ _ st => (none, st)
    Rollback := fun _ _ st => (none, st)
    Exec := fun _ _ _ _ st => (.ok 0, st) }

/-- The same driver with a commit that fails. -/
def failingCommitPool : Pool MemStore :=
  { storePool with Commit := fun _ _ st => (some (Err.other "commit failed"), st) }

/-- A transactional function that runs `Storage.Create` of the given record. -/
def createFn (pr : PullRequest) (ctx : Context) (s : Unit × (MemDB × List Call)) :
    Option (Option Err × (Unit × (MemDB × List Call))) :=
  match (NewPgxStorage memPool.recording).Create ctx pr s.2 with
  | (e, st) => some (e, (s.1, st))

/-! ## The pure helpers -/

theorem buildExcludesSet_eq (excludeIDs : List String) (key : String) :
    buildExcludesSet excludeIDs key = decide (key ∈ excludeIDs) := by
  unfold buildExcludesSet
  have h : ∀ (l : List String) (init : String → Bool),
      l.foldl (fun set id => fun key => if key = id then true else set key) init key
        = (init key || decide (key ∈ l)) := by
    intro l
    induction l with
    | nil => intro init; simp
    | cons a t ih =>
      intro init
      simp only [List.foldl_cons, ih, List.mem_cons]
      by_cases hk : key = a
      · simp [hk]
      · simp [hk]
  simpa using h excludeIDs (fun _ => false)

theorem foldl_keep_eq_filter (keep : User → Bool) (users acc : List User) :
    users.foldl (fun out user => if keep user then out else out ++ [user]) acc
      = acc ++ users.filter (fun u => !keep u) := by
  induction users generalizing acc with
  | nil => simp
  | cons u t ih =>
    simp only [List.foldl_cons, ih, List.filter_cons]
    cases keep u <;> simp

theorem foldl_ids_eq_map (candidates : List User) (acc : List String) :
    candidates.foldl (fun outIDs user => outIDs ++ [user.ID]) acc
      = acc ++ candidates.map (fun u => u.ID) := by
  induction candidates generalizing acc with
  | nil => simp
  | cons u t ih => simp [ih]

theorem filterUsersExclude_eq_filter (users : List User) (excludeIDs : List String) :
    filterUsersExclude users excludeIDs
      = users.filter (fun u => decide (u.ID ∉ excludeIDs)) := by
  unfold filterUsersExclude
  split
  · rename_i h
    have : excludeIDs = [] := List.length_eq_zero.mp h
    subst this
    simp
  · simp only [foldl_keep_eq_filter, List.nil_append, buildExcludesSet_eq]
    congr 1
    funext u
    simp

theorem mem_filterUsersExclude (users : List User) (excludeIDs : List String) (u : User) :
    u ∈ filterUsersExclude users excludeIDs ↔ u ∈ users ∧ u.ID ∉ excludeIDs := by
  rw [filterUsersExclude_eq_filter, List.mem_filter]
  simp

theorem filterUsersExclude_ids_nodup (users : List User) (excludeIDs : List String)
    (h : (users.map (fun u => u.ID)).Nodup) :
    ((filterUsersExclude users excludeIDs).map (fun u => u.ID)).Nodup := by
  rw [filterUsersExclude_eq_filter]
  exact List.Nodup.sublist (List.Sublist.map _ (List.filter_sublist _)) h

theorem chooseLoop_eq (candidates : List User) (q : Nat) (perm : List Nat)
    (outIDs : List String) (hb : ∀ i ∈ perm, i < candidates.length)
    (hle : outIDs.length ≤ q) :
    chooseLoop candidates (q : Int) perm outIDs
      = some (outIDs ++ (perm.take (q - outIDs.length)).map (idAt candidates)) := by
  induction perm generalizing outIDs with
  | nil => simp [chooseLoop]
  | cons i rest ih =>
    unfold chooseLoop
    by_cases hq : outIDs.length = q
    · simp [hq]
    · have hlt : outIDs.length < q := lt_of_le_of_ne hle hq
      have hi : i < candidates.length := hb i (List.mem_cons_self _ _)
      have hcast : ¬ ((outIDs.length : Int) = (q : Int)) := by exact_mod_cast hq
      rw [if_neg hcast]
      have hget : candidates[i]? = some candidates[i] := List.getElem?_eq_getElem hi
      rw [hget]
      simp only
      rw [ih (outIDs ++ [candidates[i].ID])
        (fun j hj => hb j (List.mem_cons_of_mem _ hj)) (by simp; omega)]
      have hsub : q - outIDs.length = (q - (outIDs.length + 1)) + 1 := by omega
      have hid : idAt candidates i = candidates[i].ID := by
        simp [idAt, List.getD_eq_getElem?_getD, hi]
      rw [hsub]
      simp [List.take_succ_cons, hid]

theorem validRand_lt (randPerm : Nat → List Nat) (h : ValidRand randPerm) (n : Nat) :
    ∀ i ∈ randPerm n, i < n := by
  intro i hi
  exact List.mem_range.mp ((h n).mem_iff.mp hi)

theorem validRand_length (randPerm : Nat → List Nat) (h : ValidRand randPerm) (n : Nat) :
    (randPerm n).length = n := by
  simpa using (h n).length_eq

theorem validRand_nodup (randPerm : Nat → List Nat) (h : ValidRand randPerm) (n : Nat) :
    (randPerm n).Nodup :=
  (h n).nodup_iff.mpr (List.nodup_range n)

/-- The identity permutation is a value `rand.Perm` may return. -/
theorem identityPerm_valid : ValidRand identityPerm := fun _ => List.Perm.refl _

/-- The three branches of `chooseReviewers` in closed form. -/
theorem chooseReviewers_eq (randPerm : Nat → List Nat) (candidates : List User)
    (quantity : Int) (hRand : ValidRand randPerm) :
    chooseReviewers randPerm candidates quantity
      = some (if candidates.length = 0 ∨ quantity ≤ 0 then []
          else if quantity ≥ (candidates.length : Int) then candidates.map (fun u => u.ID)
          else ((randPerm candidates.length).take quantity.toNat).map (idAt candidates)) := by
  unfold chooseReviewers
  by_cases h1 : candidates.length = 0 ∨ quantity ≤ 0
  · rw [if_pos h1, if_pos h1]
  · rw [if_neg h1, if_neg h1]
    by_cases h2 : quantity ≥ (candidates.length : Int)
    · rw [if_pos h2, if_pos h2, foldl_ids_eq_map]; simp
    · rw [if_neg h2, if_neg h2]
      have hq : 0 ≤ quantity := by
        have := not_or.mp h1
        omega
      obtain ⟨q, rfl⟩ := Int.eq_ofNat_of_zero_le hq
      simp only
      rw [chooseLoop_eq candidates q _ [] (validRand_lt randPerm hRand _) (by simp)]
      simp

/-- With a valid random source `chooseReviewers` returns, and the number of ids it
returns is `min(C, max(Q, 0))`. -/
theorem chooseReviewers_length (randPerm : Nat → List Nat) (candidates : List User)
    (quantity : Int) (hRand : ValidRand randPerm) :
    ∃ ids, chooseReviewers randPerm candidates quantity = some ids ∧
      (ids.length : Int) = min (candidates.length : Int) (max quantity 0) := by
  refine ⟨_, chooseReviewers_eq randPerm candidates quantity hRand, ?_⟩
  by_cases h1 : candidates.length = 0 ∨ quantity ≤ 0
  · rw [if_pos h1]
    rcases h1 with h | h
    · simp [h]
    · simp [h]
  · rw [if_neg h1]
    have h1n := not_or.mp h1
    by_cases h2 : quantity ≥ (candidates.length : Int)
    · rw [if_pos h2]
      simp only [List.length_map]
      omega
    · rw [if_neg h2]
      simp only [List.length_map, List.length_take, validRand_length randPerm hRand]
      omega

theorem idAt_inj (candidates : List User) (hnd : (candidates.map (fun u => u.ID)).Nodup)
    (i j : Nat) (hi : i < candidates.length) (hj : j < candidates.length)
    (h : idAt candidates i = idAt candidates j) : i = j := by
  have hi2 : i < (candidates.map (fun u => u.ID)).length := by simpa using hi
  have hj2 : j < (candidates.map (fun u => u.ID)).length := by simpa using hj
  have h2 : (candidates.map (fun u => u.ID))[i] = (candidates.map (fun u => u.ID))[j] := by
    simpa [idAt, List.getD_eq_getElem?_getD, hi, hj] using h
  exact (List.Nodup.getElem_inj_iff hnd).mp h2

/-- With a valid random source and candidates of pairwise distinct ids,
`chooseReviewers` returns pairwise distinct ids. -/
theorem chooseReviewers_distinct (randPerm : Nat → List Nat) (candidates : List User)
    (quantity : Int) (hRand : ValidRand randPerm)
    (hIDs : (candidates.map (fun u => u.ID)).Nodup) :
    ∃ ids, chooseReviewers randPerm candidates quantity = some ids ∧ ids.Nodup := by
  refine ⟨_, chooseReviewers_eq randPerm candidates quantity hRand, ?_⟩
  split
  · exact List.nodup_nil
  · split
    · exact hIDs
    · have hsub : List.Sublist ((randPerm candidates.length).take quantity.toNat)
          (randPerm candidates.length) := List.take_sublist _ _
      refine List.Nodup.map_on ?_ (List.Nodup.sublist hsub (validRand_nodup randPerm hRand _))
      intro x hx y hy hxy
      exact idAt_inj candidates hIDs x y
        (validRand_lt randPerm hRand _ x (List.mem_of_mem_take hx))
        (validRand_lt randPerm hRand _ y (List.mem_of_mem_take hy)) hxy

theorem chooseLoop_mem (candidates : List User) (quantity : Int) (perm : List Nat)
    (outIDs ids : List String) (h : chooseLoop candidates quantity perm outIDs = some ids) :
    ∀ id ∈ ids, id ∈ outIDs ∨ ∃ u ∈ candidates, u.ID = id := by
  induction perm generalizing outIDs with
  | nil =>
    simp only [chooseLoop, Option.some.injEq] at h
    subst h
    exact fun id hid => Or.inl hid
  | cons i rest ih =>
    unfold chooseLoop at h
    split at h
    · simp only [Option.some.injEq] at h
      subst h
      exact fun id hid => Or.inl hid
    · cases hget : candidates[i]? with
      | none => rw [hget] at h; simp at h
      | some user =>
        rw [hget] at h
        simp only at h
        intro id hid
        rcases ih _ h id hid with hmem | hex
        · rcases List.mem_append.mp hmem with h1 | h1
          · exact Or.inl h1
          · refine Or.inr ⟨user, List.getElem?_mem hget, ?_⟩
            simpa using (List.mem_singleton.mp h1).symm
        · exact Or.inr hex

/-- Whatever the random source returns, an id chosen is the id of a candidate. -/
theorem chooseReviewers_mem (randPerm : Nat → List Nat) (candidates : List User)
    (quantity : Int) (ids : List String)
    (h : chooseReviewers randPerm candidates quantity = some ids) :
    ∀ id ∈ ids, ∃ u ∈ candidates, u.ID = id := by
  unfold chooseReviewers at h
  split at h
  · simp only [Option.some.injEq] at h
    subst h
    simp
  · split at h
    · rw [foldl_ids_eq_map] at h
      simp only [List.nil_append, Option.some.injEq] at h
      subst h
      intro id hid
      obtain ⟨u, hu, rfl⟩ := List.mem_map.mp hid
      exact ⟨u, hu, rfl⟩
    · intro id hid
      rcases chooseLoop_mem _ _ _ _ _ h id hid with h1 | h1
      · simp at h1
      · exact h1

/-- An id sampled from the filtered candidates of a reassignment is none of the
excluded ids and is the id of a listed user. -/
theorem replacement_excluded (randPerm : Nat → List Nat) (users : List User)
    (oldUserID authorID : String) (reviewers rest : List String) (newID : String)
    (h : chooseReviewers randPerm (filterUsersExclude users
      ([oldUserID, authorID] ++ reviewers)) 1 = some (newID :: rest)) :
    newID ≠ oldUserID ∧ newID ≠ authorID ∧ newID ∉ reviewers ∧
      ∃ u ∈ users, u.ID = newID := by
  obtain ⟨u, hu, hid⟩ := chooseReviewers_mem _ _ _ _ h newID (List.mem_cons_self _ _)
  rw [mem_filterUsersExclude] at hu
  obtain ⟨huUsers, huEx⟩ := hu
  rw [hid] at huEx
  simp only [List.cons_append, List.nil_append, List.mem_cons, not_or] at huEx
  exact ⟨huEx.1, huEx.2.1, huEx.2.2, u, huUsers, hid⟩

theorem replaceLoop_length (oldUserID newID : String) (l : List String) :
    (replaceLoop oldUserID newID l).length = l.length := by
  induction l with
  | nil => rfl
  | cons id rest ih =>
    unfold replaceLoop
    split <;> simp [ih]

theorem replaceLoop_mem_new (oldUserID newID : String) (l : List String)
    (h : oldUserID ∈ l) : newID ∈ replaceLoop oldUserID newID l := by
  induction l with
  | nil => simp at h
  | cons id rest ih =>
    unfold replaceLoop
    split
    · exact List.mem_cons_self _ _
    · rename_i hne
      rcases List.mem_cons.mp h with h1 | h1
      · exact absurd h1.symm hne
      · exact List.mem_cons_of_mem _ (ih h1)

theorem replaceLoop_mem (oldUserID newID x : String) (l : List String)
    (h : x ∈ replaceLoop oldUserID newID l) : x = newID ∨ x ∈ l := by
  induction l with
  | nil => simp [replaceLoop] at h
  | cons id rest ih =>
    unfold replaceLoop at h
    split at h
    · rcases List.mem_cons.mp h with h1 | h1
      · exact Or.inl h1
      · exact Or.inr (List.mem_cons_of_mem _ h1)
    · rcases List.mem_cons.mp h with h1 | h1
      · exact Or.inr (h1 ▸ List.mem_cons_self _ _)
      · rcases ih h1 with h2 | h2
        · exact Or.inl h2
        · exact Or.inr (List.mem_cons_of_mem _ h2)

theorem replaceLoop_getElem? (oldUserID newID : String) (l : List String) (i : Nat)
    (r : String) (h : l[i]? = some r) (hne : r ≠ oldUserID) :
    (replaceLoop oldUserID newID l)[i]? = some r := by
  induction l generalizing i with
  | nil => simp at h
  | cons id rest ih =>
    unfold replaceLoop
    cases i with
    | zero =>
      simp only [List.getElem?_cons_zero, Option.some.injEq] at h
      subst h
      simp [hne]
    | succ j =>
      simp only [List.getElem?_cons_succ] at h
      split
      · simpa using h
      · simpa using ih j h

theorem replaceLoop_not_mem_old (oldUserID newID : String) (l : List String)
    (hcount : l.count oldUserID = 1) (hne : newID ≠ oldUserID) :
    oldUserID ∉ replaceLoop oldUserID newID l := by
  induction l with
  | nil => simp at hcount
  | cons id rest ih =>
    unfold replaceLoop
    by_cases hid : id = oldUserID
    · subst hid
      rw [if_pos rfl]
      simp only [List.count_cons_self, Nat.add_left_eq_self] at hcount
      intro hmem
      rcases List.mem_cons.mp hmem with h1 | h1
      · exact hne h1.symm
      · exact (List.count_eq_zero.mp hcount) h1
    · rw [if_neg hid]
      rw [List.count_cons_of_ne (fun h => hid h.symm)] at hcount
      intro hmem
      rcases List.mem_cons.mp hmem with h1 | h1
      · exact hid h1.symm
      · exact ih hcount h1

theorem replaceLoop_nodup (oldUserID newID : String) (l : List String) (hnd : l.Nodup)
    (hnew : newID ∉ l) : (replaceLoop oldUserID newID l).Nodup := by
  induction l with
  | nil => simp [replaceLoop]
  | cons id rest ih =>
    unfold replaceLoop
    have hcons := List.nodup_cons.mp hnd
    split
    · exact List.nodup_cons.mpr ⟨fun h => hnew (List.mem_cons_of_mem _ h), hcons.2⟩
    · refine List.nodup_cons.mpr ⟨?_, ih hcons.2 (fun h => hnew (List.mem_cons_of_mem _ h))⟩
      intro hmem
      rcases replaceLoop_mem _ _ _ _ hmem with h1 | h1
      · exact hnew (h1 ▸ List.mem_cons_self _ _)
      · exact hcons.1 h1

/-! ## The operations, branch by branch -/

theorem recordCall_eq {σ α : Type} (call : Call) (method : σ → α × σ) (st : σ)
    (tr : List Call) (r : α) (st1 : σ) (h : method st = (r, st1)) :
    recordCall call method (st, tr) = (r, (st1, tr ++ [call])) := by
  simp [recordCall, h]

/-- `MergePullRequest` on recording stores, branch by branch. -/
theorem merge_run {σ : Type} (teamStore : TeamStorage σ) (userStore : UserStorage σ)
    (prStore : PullRequestStorage σ) (now : Time) (ctx : Context) (prID : String)
    (st : σ) (tr : List Call) :
    (recordingService teamStore userStore prStore).MergePullRequest now ctx prID (st, tr)
      = match prStore.GetPullRequestByIDForUpdate ctx prID st with
        | (.error err, st1) =>
          some ((PullRequest.zero, some err),
            (st1, tr ++ [Call.GetPullRequestByIDForUpdate prID]))
        | (.ok pr, st1) =>
          if pr.Status = PRStatusMerged then
            some ((pr, none), (st1, tr ++ [Call.GetPullRequestByIDForUpdate prID]))
          else
            match prStore.UpdateStatusMerged ctx prID (some now) st1 with
            | (some err, st2) =>
              some ((PullRequest.zero, some err),
                (st2, tr ++ [Call.GetPullRequestByIDForUpdate prID,
                  Call.UpdateStatusMerged prID (some now)]))
            | (none, st2) =>
              some (({ pr with Status := PRStatusMerged, MergedAt := some now }, none),
                (st2, tr ++ [Call.GetPullRequestByIDForUpdate prID,
                  Call.UpdateStatusMerged prID (some now)])) := by
  simp only [Service.MergePullRequest, recordingService, NewService, mockTxManager,
    PullRequestStorage.recording]
  rcases hGet : prStore.GetPullRequestByIDForUpdate ctx prID st with ⟨r, st1⟩
  rw [recordCall_eq _ _ st tr r st1 hGet]
  cases r with
  | error err => rfl
  | ok pr =>
    simp only
    by_cases hM : pr.Status = PRStatusMerged
    · simp only [hM, if_true]
    · simp only [hM, if_false]
      rcases hUpd : prStore.UpdateStatusMerged ctx prID (some now) st1 with ⟨e, st2⟩
      rw [recordCall_eq _ _ st1 _ e st2 hUpd]
      cases e with
      | some err => simp
      | none => simp

/-- `CreatePullRequest` on recording stores, branch by branch. -/
theorem create_run {σ : Type} (teamStore : TeamStorage σ) (userStore : UserStorage σ)
    (prStore : PullRequestStorage σ) (now : Time) (randPerm : Nat → List Nat)
    (ctx : Context) (prID prName authorID : String) (st : σ) (tr : List Call) :
    (recordingService teamStore userStore prStore).CreatePullRequest now randPerm ctx prID
        prName authorID (st, tr)
      = match prStore.GetPullRequestByID ctx prID st with
        | (.ok _, st1) =>
          some ((PullRequest.zero, some Err.ErrPRExists),
            (st1, tr ++ [Call.GetPullRequestByID prID]))
        | (.error err, st1) =>
          if !errorsIs err Err.ErrNotFound then
            some ((PullRequest.zero, some err), (st1, tr ++ [Call.GetPullRequestByID prID]))
          else
            match userStore.GetUserByID ctx authorID st1 with
            | (.error err, st2) =>
              some ((PullRequest.zero, some err),
                (st2, tr ++ [Call.GetPullRequestByID prID, Call.GetUserByID authorID]))
            | (.ok author, st2) =>
              match userStore.ListActiveUserByTeam ctx author.TeamName st2 with
              | (.error err, st3) =>
                some ((PullRequest.zero, some err),
                  (st3, tr ++ [Call.GetPullRequestByID prID, Call.GetUserByID authorID,
                    Call.ListActiveUserByTeam author.TeamName]))
              | (.ok users, st3) =>
                match chooseReviewers randPerm (filterUsersExclude users [authorID]) 2 with
                | none => none
                | some reviewers =>
                  match prStore.Create ctx
                      (newPullRequest now prID prName authorID reviewers) st3 with
                  | (some err, st4) =>
                    some ((PullRequest.zero, some err),
                      (st4, tr ++ [Call.GetPullRequestByID prID, Call.GetUserByID authorID,
                        Call.ListActiveUserByTeam author.TeamName,
                        Call.Create (newPullRequest now prID prName authorID reviewers)]))
                  | (none, st4) =>
                    some ((newPullRequest now prID prName authorID reviewers, none),
                      (st4, tr ++ [Call.GetPullRequestByID prID, Call.GetUserByID authorID,
                        Call.ListActiveUserByTeam author.TeamName,
                        Call.Create (newPullRequest now prID prName authorID reviewers)])) := by
  simp only [Service.CreatePullRequest, recordingService, NewService, mockTxManager,
    PullRequestStorage.recording, UserStorage.recording, newPullRequest]
  rcases hGet : prStore.GetPullRequestByID ctx prID st with ⟨r, st1⟩
  rw [recordCall_eq _ _ st tr r st1 hGet]
  cases r with
  | ok pr => rfl
  | error err =>
    simp only
    by_cases hNF : (!errorsIs err Err.ErrNotFound) = true
    · simp only [hNF, if_true]
    · simp only [hNF, if_false]
      rcases hUser : userStore.GetUserByID ctx authorID st1 with ⟨r2, st2⟩
      rw [recordCall_eq _ _ st1 _ r2 st2 hUser]
      cases r2 with
      | error err => simp
      | ok author =>
        simp only
        rcases hList : userStore.ListActiveUserByTeam ctx author.TeamName st2 with ⟨r3, st3⟩
        rw [recordCall_eq _ _ st2 _ r3 st3 hList]
        cases r3 with
        | error err => simp
        | ok users =>
          simp only
          cases hCh : chooseReviewers randPerm (filterUsersExclude users [authorID]) 2 with
          | none => rfl
          | some reviewers =>
            simp only
            rcases hCr : prStore.Create ctx
              { ID := prID, Name := prName, AuthorID := authorID, Status := PRStatusOpen,
                AssignedReviewers := reviewers, CreatedAt := some now, MergedAt := none } st3
              with ⟨e, st4⟩
            rw [recordCall_eq _ _ st3 _ e st4 hCr]
            cases e with
            | some err => simp
            | none => simp

/-- What a `CreatePullRequest` run went through: a failure returns the zero record,
a success went through the lookup, the author, the listing, the sampling and `Create`. -/
theorem create_outcome {σ : Type} (teamStore : TeamStorage σ) (userStore : UserStorage σ)
    (prStore : PullRequestStorage σ) (now : Time) (randPerm : Nat → List Nat)
    (ctx : Context) (prID prName authorID : String) (st st4 : σ) (tr tr4 : List Call)
    (created : PullRequest) (e : Option Err)
    (h : (recordingService teamStore userStore prStore).CreatePullRequest now randPerm ctx
        prID prName authorID (st, tr) = some ((created, e), (st4, tr4))) :
    (e ≠ none ∧ created = PullRequest.zero) ∨
    (e = none ∧ ∃ err st1 author st2 users st3 reviewers,
      prStore.GetPullRequestByID ctx prID st = (.error err, st1) ∧
      errorsIs err Err.ErrNotFound = true ∧
      userStore.GetUserByID ctx authorID st1 = (.ok author, st2) ∧
      userStore.ListActiveUserByTeam ctx author.TeamName st2 = (.ok users, st3) ∧
      chooseReviewers randPerm (filterUsersExclude users [authorID]) 2 = some reviewers ∧
      created = newPullRequest now prID prName authorID reviewers ∧
      prStore.Create ctx created st3 = (none, st4) ∧
      tr4 = tr ++ [Call.GetPullRequestByID prID, Call.GetUserByID authorID,
        Call.ListActiveUserByTeam author.TeamName, Call.Create created]) := by
  rw [create_run] at h
  rcases hGet : prStore.GetPullRequestByID ctx prID st with ⟨r, st1⟩
  rw [hGet] at h
  cases r with
  | ok pr =>
    simp only [Option.some.injEq, Prod.mk.injEq] at h
    obtain ⟨⟨rfl, rfl⟩, _⟩ := h
    exact Or.inl ⟨by simp, rfl⟩
  | error err =>
    simp only at h
    by_cases hNF : (!errorsIs err Err.ErrNotFound) = true
    · rw [if_pos hNF] at h
      simp only [Option.some.injEq, Prod.mk.injEq] at h
      obtain ⟨⟨rfl, rfl⟩, _⟩ := h
      exact Or.inl ⟨by simp, rfl⟩
    · rw [if_neg hNF] at h
      have hIs : errorsIs err Err.ErrNotFound = true := by simpa using hNF
      rcases hUser : userStore.GetUserByID ctx authorID st1 with ⟨r2, st2⟩
      rw [hUser] at h
      cases r2 with
      | error err2 =>
        simp only [Option.some.injEq, Prod.mk.injEq] at h
        obtain ⟨⟨rfl, rfl⟩, _⟩ := h
        exact Or.inl ⟨by simp, rfl⟩
      | ok author =>
        simp only at h
        rcases hList : userStore.ListActiveUserByTeam ctx author.TeamName st2 with ⟨r3, st3⟩
        rw [hList] at h
        cases r3 with
        | error err3 =>
          simp only [Option.some.injEq, Prod.mk.injEq] at h
          obtain ⟨⟨rfl, rfl⟩, _⟩ := h
          exact Or.inl ⟨by simp, rfl⟩
        | ok users =>
          simp only at h
          cases hCh : chooseReviewers randPerm (filterUsersExclude users [authorID]) 2 with
          | none => rw [hCh] at h; simp at h
          | some reviewers =>
            rw [hCh] at h
            simp only at h
            rcases hCr : prStore.Create ctx
              (newPullRequest now prID prName authorID reviewers) st3 with ⟨ce, stC⟩
            rw [hCr] at h
            cases ce with
            | some err4 =>
              simp only [Option.some.injEq, Prod.mk.injEq] at h
              obtain ⟨⟨rfl, rfl⟩, _⟩ := h
              exact Or.inl ⟨by simp, rfl⟩
            | none =>
              simp only [Option.some.injEq, Prod.mk.injEq] at h
              obtain ⟨⟨rfl, rfl⟩, rfl, rfl⟩ := h
              exact Or.inr ⟨rfl, err, st1, author, st2, users, st3, reviewers, rfl, hIs,
                hUser, hList, hCh, rfl, hCr, rfl⟩

/-- `ReassignReviewer` on recording stores, branch by branch. -/
theorem reassign_run {σ : Type} (teamStore : TeamStorage σ) (userStore : UserStorage σ)
    (prStore : PullRequestStorage σ) (randPerm : Nat → List Nat) (ctx : Context)
    (prID oldUserID : String) (st : σ) (tr : List Call) :
    (recordingService teamStore userStore prStore).ReassignReviewer randPerm ctx prID
        oldUserID (st, tr)
      = match prStore.GetPullRequestByIDForUpdate ctx prID st with
        | (.error err, st1) =>
          some ((PullRequest.zero, "", some err),
            (st1, tr ++ [Call.GetPullRequestByIDForUpdate prID]))
        | (.ok pr, st1) =>
          if pr.Status = PRStatusMerged then
            some ((PullRequest.zero, "", some Err.ErrPRMerged),
              (st1, tr ++ [Call.GetPullRequestByIDForUpdate prID]))
          else if !pr.AssignedReviewers.contains oldUserID then
            some ((PullRequest.zero, "", some Err.ErrNotAssigned),
              (st1, tr ++ [Call.GetPullRequestByIDForUpdate prID]))
          else
            match userStore.GetUserByID ctx oldUserID st1 with
            | (.error err, st2) =>
              some ((PullRequest.zero, "", some err),
                (st2, tr ++ [Call.GetPullRequestByIDForUpdate prID,
                  Call.GetUserByID oldUserID]))
            | (.ok oldUser, st2) =>
              match userStore.ListActiveUserByTeam ctx oldUser.TeamName st2 with
              | (.error err, st3) =>
                some ((PullRequest.zero, "", some err),
                  (st3, tr ++ [Call.GetPullRequestByIDForUpdate prID,
                    Call.GetUserByID oldUserID, Call.ListActiveUserByTeam oldUser.TeamName]))
              | (.ok users, st3) =>
                if (filterUsersExclude users
                    ([oldUserID, pr.AuthorID] ++ pr.AssignedReviewers)).length = 0 then
                  some ((PullRequest.zero, "", some Err.ErrNoCandidate),
                    (st3, tr ++ [Call.GetPullRequestByIDForUpdate prID,
                      Call.GetUserByID oldUserID, Call.ListActiveUserByTeam oldUser.TeamName]))
                else
                  match chooseReviewers randPerm (filterUsersExclude users
                      ([oldUserID, pr.AuthorID] ++ pr.AssignedReviewers)) 1 with
                  | none => none
                  | some [] => none
                  | some (newID :: _) =>
                    match prStore.ReplaceReviewer ctx prID oldUserID newID st3 with
                    | (some err, st4) =>
                      some ((PullRequest.zero, "", some err),
                        (st4, tr ++ [Call.GetPullRequestByIDForUpdate prID,
                          Call.GetUserByID oldUserID,
                          Call.ListActiveUserByTeam oldUser.TeamName,
                          Call.ReplaceReviewer prID oldUserID newID]))
                    | (none, st4) =>
                      some (({ pr with AssignedReviewers :=
                            replaceLoop oldUserID newID pr.AssignedReviewers }, newID, none),
                        (st4, tr ++ [Call.GetPullRequestByIDForUpdate prID,
                          Call.GetUserByID oldUserID,
                          Call.ListActiveUserByTeam oldUser.TeamName,
                          Call.ReplaceReviewer prID oldUserID newID])) := by
  simp only [Service.ReassignReviewer, recordingService, NewService, mockTxManager,
    PullRequestStorage.recording, UserStorage.recording]
  rcases hGet : prStore.GetPullRequestByIDForUpdate ctx prID st with ⟨r, st1⟩
  rw [recordCall_eq _ _ st tr r st1 hGet]
  cases r with
  | error err => rfl
  | ok pr =>
    simp only
    by_cases hM : pr.Status = PRStatusMerged
    · simp only [hM, if_true]
    · simp only [hM, if_false]
      by_cases hC : (!pr.AssignedReviewers.contains oldUserID) = true
      · simp only [hC, if_true]
      · simp only [hC, if_false]
        rcases hUser : userStore.GetUserByID ctx oldUserID st1 with ⟨r2, st2⟩
        rw [recordCall_eq _ _ st1 _ r2 st2 hUser]
        cases r2 with
        | error err => simp
        | ok oldUser =>
          simp only
          rcases hList : userStore.ListActiveUserByTeam ctx oldUser.TeamName st2 with ⟨r3, st3⟩
          rw [recordCall_eq _ _ st2 _ r3 st3 hList]
          cases r3 with
          | error err => simp
          | ok users =>
            simp only
            by_cases hE : (filterUsersExclude users
                ([oldUserID, pr.AuthorID] ++ pr.AssignedReviewers)).length = 0
            · simp only [hE, if_true]; simp
            · simp only [hE, if_false]
              cases hCh : chooseReviewers randPerm (filterUsersExclude users
                  ([oldUserID, pr.AuthorID] ++ pr.AssignedReviewers)) 1 with
              | none => rfl
              | some ids =>
                cases ids with
                | nil => rfl
                | cons newID rest =>
                  simp only
                  rcases hRep : prStore.ReplaceReviewer ctx prID oldUserID newID st3
                    with ⟨e, st4⟩
                  rw [recordCall_eq _ _ st3 _ e st4 hRep]
                  cases e with
                  | some err => simp
                  | none => simp

/-- What a successful `ReassignReviewer` run went through. -/
theorem reassign_success {σ : Type} (teamStore : TeamStorage σ)
    (userStore : UserStorage σ) (prStore : PullRequestStorage σ)
    (randPerm : Nat → List Nat) (ctx : Context) (prID oldUserID : String) (st st4 : σ)
    (tr tr4 : List Call) (result : PullRequest) (replacedBy : String)
    (h : (recordingService teamStore userStore prStore).ReassignReviewer randPerm ctx prID
        oldUserID (st, tr) = some ((result, replacedBy, none), (st4, tr4))) :
    ∃ pr st1 oldUser st2 users st3 rest,
      prStore.GetPullRequestByIDForUpdate ctx prID st = (.ok pr, st1) ∧
      pr.Status ≠ PRStatusMerged ∧
      oldUserID ∈ pr.AssignedReviewers ∧
      userStore.GetUserByID ctx oldUserID st1 = (.ok oldUser, st2) ∧
      userStore.ListActiveUserByTeam ctx oldUser.TeamName st2 = (.ok users, st3) ∧
      chooseReviewers randPerm (filterUsersExclude users
        ([oldUserID, pr.AuthorID] ++ pr.AssignedReviewers)) 1 = some (replacedBy :: rest) ∧
      prStore.ReplaceReviewer ctx prID oldUserID replacedBy st3 = (none, st4) ∧
      tr4 = tr ++ [Call.GetPullRequestByIDForUpdate prID, Call.GetUserByID oldUserID,
        Call.ListActiveUserByTeam oldUser.TeamName,
        Call.ReplaceReviewer prID oldUserID replacedBy] ∧
      result.AssignedReviewers = replaceLoop oldUserID replacedBy pr.AssignedReviewers ∧
      result = { pr with AssignedReviewers := result.AssignedReviewers } := by
  rw [reassign_run] at h
  rcases hGet : prStore.GetPullRequestByIDForUpdate ctx prID st with ⟨r, st1⟩
  rw [hGet] at h
  cases r with
  | error err => simp at h
  | ok pr =>
    simp only at h
    by_cases hM : pr.Status = PRStatusMerged
    · simp [hM] at h
    · rw [if_neg hM] at h
      by_cases hC : (!pr.AssignedReviewers.contains oldUserID) = true
      · rw [if_pos hC] at h; simp at h
      · rw [if_neg hC] at h
        have hIn : oldUserID ∈ pr.AssignedReviewers := by simpa using hC
        rcases hUser : userStore.GetUserByID ctx oldUserID st1 with ⟨r2, st2⟩
        rw [hUser] at h
        cases r2 with
        | error err => simp at h
        | ok oldUser =>
          simp only at h
          rcases hList : userStore.ListActiveUserByTeam ctx oldUser.TeamName st2 with ⟨r3, st3⟩
          rw [hList] at h
          cases r3 with
          | error err => simp at h
          | ok users =>
            simp only at h
            split at h
            · simp at h
            · cases hCh : chooseReviewers randPerm (filterUsersExclude users
                  ([oldUserID, pr.AuthorID] ++ pr.AssignedReviewers)) 1 with
              | none => rw [hCh] at h; simp at h
              | some ids =>
                rw [hCh] at h
                cases ids with
                | nil => simp at h
                | cons newID rest =>
                  simp only at h
                  rcases hRep : prStore.ReplaceReviewer ctx prID oldUserID newID st3
                    with ⟨e, stE⟩
                  rw [hRep] at h
                  cases e with
                  | some err => simp at h
                  | none =>
                    simp only [Option.some.injEq, Prod.mk.injEq, and_true] at h
                    obtain ⟨⟨rfl, rfl⟩, rfl, rfl⟩ := h
                    exact ⟨pr, st1, oldUser, st2, users, st3, rest, rfl, hM, hIn, hUser,
                      hList, hCh, hRep, rfl, rfl, rfl⟩

/-- `CreateTeam` on recording stores, branch by branch. -/
theorem createTeam_run {σ : Type} (teamStore : TeamStorage σ) (userStore : UserStorage σ)
    (prStore : PullRequestStorage σ) (ctx : Context) (team : Team) (st : σ)
    (tr : List Call) :
    (recordingService teamStore userStore prStore).CreateTeam ctx team (st, tr)
      = match teamStore.TeamExists ctx team.Name st with
        | (.error err, st1) => some (.error err, (st1, tr ++ [Call.TeamExists team.Name]))
        | (.ok true, st1) =>
          some (.error Err.ErrTeamExists, (st1, tr ++ [Call.TeamExists team.Name]))
        | (.ok false, st1) =>
          match teamStore.CreateWithMembers ctx team st1 with
          | (some err, st2) =>
            some (.error err,
              (st2, tr ++ [Call.TeamExists team.Name, Call.CreateWithMembers team]))
          | (none, st2) =>
            some ((teamStore.GetWithMembers ctx team.Name st2).1,
              ((teamStore.GetWithMembers ctx team.Name st2).2,
                tr ++ [Call.TeamExists team.Name, Call.CreateWithMembers team,
                  Call.GetWithMembers team.Name])) := by
  simp only [Service.CreateTeam, recordingService, NewService, mockTxManager,
    TeamStorage.recording]
  rcases hEx : teamStore.TeamExists ctx team.Name st with ⟨r, st1⟩
  rw [recordCall_eq _ _ st tr r st1 hEx]
  cases r with
  | error err => rfl
  | ok b =>
    cases b with
    | true => rfl
    | false =>
      simp only [Bool.false_eq_true, if_false]
      rcases hCr : teamStore.CreateWithMembers ctx team st1 with ⟨e, st2⟩
      rw [recordCall_eq _ _ st1 _ e st2 hCr]
      cases e with
      | some err => simp
      | none => simp [recordCall]

theorem memPRStore_reflects : MergeReflected memPRStore := by
  constructor
  · intro ctx id pr st0 st1 h
    refine ⟨st1, ?_⟩
    simp only [memPRStore, memLookup] at h ⊢
    cases hf : st0.pullRequests.find? (fun p => p.ID == id) with
    | none => rw [hf] at h; simp at h
    | some p =>
      rw [hf] at h
      simp only [Prod.mk.injEq, Except.ok.injEq] at h
      obtain ⟨rfl, rfl⟩ := h
      rw [hf]
  · intro ctx id pr t st0 st1 st2 h hu
    simp only [memPRStore, memLookup] at h hu ⊢
    cases hf : st0.pullRequests.find? (fun p => p.ID == id) with
    | none => rw [hf] at h; simp at h
    | some p =>
      rw [hf] at h
      simp only [Prod.mk.injEq, Except.ok.injEq] at h
      obtain ⟨rfl, rfl⟩ := h
      simp only [Prod.mk.injEq, true_and] at hu
      have hid : p.ID = id := by simpa using List.find?_some hf
      refine ⟨{ p with Status := PRStatusMerged, MergedAt := some t }, st2, ?_, rfl, rfl⟩
      subst hu
      simp only [List.find?_map]
      have hcomp : ((fun p : PullRequest => p.ID == id) ∘ fun p : PullRequest =>
          if (p.ID == id) = true then
            { p with Status := PRStatusMerged, MergedAt := some t }
          else p) = (fun p : PullRequest => p.ID == id) := by
        funext q
        simp only [Function.comp]
        split <;> rfl
      rw [hcomp, hf]
      simp [hid]

/-- The in-memory `ReplaceReviewer` fails with `ErrNotAssigned` only. -/
theorem memPRStore_replace_errors (ctx : Context) (prID oldID newID : String)
    (st : MemStore) (e : Err)
    (h : (memPRStore.ReplaceReviewer ctx prID oldID newID st).1 = some e) :
    errorsIs e Err.ErrNoCandidate = false := by
  simp only [memPRStore] at h
  split at h
  · simp at h
  · simp only [Option.some.injEq] at h
    subst h
    decide

/-- `CreatePullRequest` under the transaction manager of the `Storage`, in terms of the
run of its transactional function. -/
theorem create_run_pgx {σ : Type} (teamStore : TeamStorage σ) (userStore : UserStorage σ)
    (prStore : PullRequestStorage σ) (pool : Pool σ) (now : Time)
    (randPerm : Nat → List Nat) (ctx : Context) (prID prName authorID : String) (st : σ)
    (tr : List Call) :
    (pgxService teamStore userStore prStore pool).CreatePullRequest now randPerm ctx prID
        prName authorID (st, tr)
      = match TxFromContext ctx with
        | some _ =>
          (recordingService teamStore userStore prStore).CreatePullRequest now randPerm ctx
            prID prName authorID (st, tr)
        | none =>
          match pool.BeginTx ctx RepeatableRead st with
          | (.error err, st1) =>
            some ((PullRequest.zero, some err), (st1, tr ++ [Call.BeginTx RepeatableRead]))
          | (.ok tx, st1) =>
            match (recordingService teamStore userStore prStore).CreatePullRequest now
                randPerm (contextWithTx ctx tx) prID prName authorID
                (st1, tr ++ [Call.BeginTx RepeatableRead]) with
            | none => none
            | some ((created, some err), (st2, tr2)) =>
              some ((created, some err),
                ((pool.Rollback tx (contextWithTx ctx tx) st2).2, tr2 ++ [Call.Rollback tx]))
            | some ((created, none), (st2, tr2)) =>
              some ((created, (pool.Commit tx (contextWithTx ctx tx) st2).1),
                ((pool.Rollback tx (contextWithTx ctx tx)
                    (pool.Commit tx (contextWithTx ctx tx) st2).2).2,
                  tr2 ++ [Call.Commit tx, Call.Rollback tx])) := by
  cases hTx : TxFromContext ctx with
  | some tx0 =>
    simp only [Service.CreatePullRequest, pgxService, recordingService, NewService,
      mockTxManager, Storage.asTxManager, Storage.WithTx, NewPgxStorage, NewTxManager,
      TxManager.WithTx, hTx]
  | none =>
    conv_lhs =>
      simp only [Service.CreatePullRequest, pgxService, NewService, Storage.asTxManager,
        Storage.WithTx, NewPgxStorage, NewTxManager, TxManager.WithTx, hTx, Pool.recording,
        PullRequestStorage.recording, UserStorage.recording]
    rcases hB : pool.BeginTx ctx RepeatableRead st with ⟨r, st1⟩
    rw [recordCall_eq _ _ st tr r st1 hB]
    cases r with
    | error err => rfl
    | ok tx =>
      simp only
      rw [create_run]
      simp only [newPullRequest]
      rcases hGet : prStore.GetPullRequestByID (contextWithTx ctx tx) prID st1 with ⟨r1, st2⟩
      rw [recordCall_eq _ _ st1 _ r1 st2 hGet]
      cases r1 with
      | ok pr => simp [recordCall]
      | error err =>
        simp only
        by_cases hNF : (!errorsIs err Err.ErrNotFound) = true
        · simp [hNF, recordCall]
        · simp only [hNF, if_false]
          rcases hUser : userStore.GetUserByID (contextWithTx ctx tx) authorID st2
            with ⟨r2, st3⟩
          rw [recordCall_eq _ _ st2 _ r2 st3 hUser]
          cases r2 with
          | error err => simp [recordCall]
          | ok author =>
            simp only
            rcases hList : userStore.ListActiveUserByTeam (contextWithTx ctx tx)
              author.TeamName st3 with ⟨r3, st4⟩
            rw [recordCall_eq _ _ st3 _ r3 st4 hList]
            cases r3 with
            | error err => simp [recordCall]
            | ok users =>
              simp only
              cases hCh : chooseReviewers randPerm (filterUsersExclude users [authorID]) 2 with
              | none => rfl
              | some reviewers =>
                simp only
                rcases hCr : prStore.Create (contextWithTx ctx tx)
                  { ID := prID, Name := prName, AuthorID := authorID, Status := PRStatusOpen,
                    AssignedReviewers := reviewers, CreatedAt := some now, MergedAt := none }
                  st4 with ⟨e, st5⟩
                rw [recordCall_eq _ _ st4 _ e st5 hCr]
                cases e with
                | some err => simp [recordCall]
                | none => simp [recordCall]

/-- With the pass-through transaction manager of the tests: a successful
`CreatePullRequest` hands to `Create`, as its last store call, a record with the given
id, title and author, status `OPEN`, creation time `now`, no merge time and the sampled
reviewers, and returns that same record; on any failure the record returned is the zero
`PullRequest`. -/
theorem create_returns_persisted_passthrough {σ : Type} (teamStore : TeamStorage σ)
    (userStore : UserStorage σ) (prStore : PullRequestStorage σ) (now : Time)
    (randPerm : Nat → List Nat) (ctx : Context) (prID prName authorID : String)
    (st st4 : σ) (tr tr4 : List Call) (created : PullRequest) (e : Option Err)
    (h : (recordingService teamStore userStore prStore).CreatePullRequest now randPerm ctx
        prID prName authorID (st, tr) = some ((created, e), (st4, tr4))) :
    (e = none →
      ∃ (author : User) (st2 : σ) (users : List User) (st3 : σ),
        userStore.ListActiveUserByTeam ctx author.TeamName st2 = (.ok users, st3) ∧
        chooseReviewers randPerm (filterUsersExclude users [authorID]) 2
          = some created.AssignedReviewers ∧
        prStore.Create ctx created st3 = (none, st4) ∧
        tr4 = tr ++ [Call.GetPullRequestByID prID, Call.GetUserByID authorID,
          Call.ListActiveUserByTeam author.TeamName, Call.Create created] ∧
        created.ID = prID ∧ created.Name = prName ∧ created.AuthorID = authorID ∧
        created.Status = PRStatusOpen ∧ created.CreatedAt = some now ∧
        created.MergedAt = none) ∧
    (e ≠ none → created = PullRequest.zero) := by
  rcases create_outcome teamStore userStore prStore now randPerm ctx prID prName authorID
      st st4 tr tr4 created e h with ⟨hne, hzero⟩ | ⟨he, err, st1, author, st2, users, st3,
      reviewers, _, _, _, hList, hCh, hCreated, hCr, hTr⟩
  · exact ⟨fun he => absurd he hne, fun _ => hzero⟩
  · refine ⟨fun _ => ⟨author, st2, users, st3, hList, ?_, hCr, hTr, ?_⟩, fun hne => absurd he hne⟩
    · rw [hCh, hCreated]; rfl
    · subst hCreated
      exact ⟨rfl, rfl, rfl, rfl, rfl, rfl⟩

/-- The calls a `CreatePullRequest` run on the pass-through transaction manager records
are appended to the record, and none of them is a `Commit`. -/
theorem create_calls {σ : Type} (teamStore : TeamStorage σ) (userStore : UserStorage σ)
    (prStore : PullRequestStorage σ) (now : Time) (randPerm : Nat → List Nat)
    (ctx : Context) (prID prName authorID : String) (st st4 : σ) (tr tr4 : List Call)
    (created : PullRequest) (e : Option Err)
    (h : (recordingService teamStore userStore prStore).CreatePullRequest now randPerm ctx
        prID prName authorID (st, tr) = some ((created, e), (st4, tr4))) :
    ∃ calls : List Call, tr4 = tr ++ calls ∧ ∀ tx, Call.Commit tx ∉ calls := by
  rw [create_run] at h
  rcases hGet : prStore.GetPullRequestByID ctx prID st with ⟨r, st1⟩
  rw [hGet] at h
  cases r with
  | ok pr =>
    simp only [Option.some.injEq, Prod.mk.injEq] at h
    obtain ⟨_, _, rfl⟩ := h
    exact ⟨_, rfl, by simp⟩
  | error err =>
    simp only at h
    by_cases hNF : (!errorsIs err Err.ErrNotFound) = true
    · rw [if_pos hNF] at h
      simp only [Option.some.injEq, Prod.mk.injEq] at h
      obtain ⟨_, _, rfl⟩ := h
      exact ⟨_, rfl, by simp⟩
    · rw [if_neg hNF] at h
      rcases hUser : userStore.GetUserByID ctx authorID st1 with ⟨r2, st2⟩
      rw [hUser] at h
      cases r2 with
      | error err2 =>
        simp only [Option.some.injEq, Prod.mk.injEq] at h
        obtain ⟨_, _, rfl⟩ := h
        exact ⟨_, rfl, by simp⟩
      | ok author =>
        simp only at h
        rcases hList : userStore.ListActiveUserByTeam ctx author.TeamName st2 with ⟨r3, st3⟩
        rw [hList] at h
        cases r3 with
        | error err3 =>
          simp only [Option.some.injEq, Prod.mk.injEq] at h
          obtain ⟨_, _, rfl⟩ := h
          exact ⟨_, rfl, by simp⟩
        | ok users =>
          simp only at h
          cases hCh : chooseReviewers randPerm (filterUsersExclude users [authorID]) 2 with
          | none => rw [hCh] at h; simp at h
          | some reviewers =>
            rw [hCh] at h
            simp only at h
            rcases hCr : prStore.Create ctx
              (newPullRequest now prID prName authorID reviewers) st3 with ⟨ce, stC⟩
            rw [hCr] at h
            cases ce with
            | some err4 =>
              simp only [Option.some.injEq, Prod.mk.injEq] at h
              obtain ⟨_, _, rfl⟩ := h
              exact ⟨_, rfl, by simp⟩
            | none =>
              simp only [Option.some.injEq, Prod.mk.injEq] at h
              obtain ⟨_, _, rfl⟩ := h
              exact ⟨_, rfl, by simp⟩

/-- What a `CreatePullRequest` run under the transaction manager of the `Storage` went
through: the transactional function alone when the context carries a transaction;
otherwise `BeginTx`, then the transactional function, then `Rollback` alone when it
failed, `Commit` and `Rollback` when it did not. -/
theorem create_outcome_pgx {σ : Type} (teamStore : TeamStorage σ) (userStore : UserStorage σ)
    (prStore : PullRequestStorage σ) (pool : Pool σ) (now : Time)
    (randPerm : Nat → List Nat) (ctx : Context) (prID prName authorID : String)
    (st st6 : σ) (tr tr6 : List Call) (created : PullRequest) (e : Option Err)
    (h : (pgxService teamStore userStore prStore pool).CreatePullRequest now randPerm ctx
        prID prName authorID (st, tr) = some ((created, e), (st6, tr6))) :
    ((∃ tx, TxFromContext ctx = some tx) ∧
      (recordingService teamStore userStore prStore).CreatePullRequest now randPerm ctx
        prID prName authorID (st, tr) = some ((created, e), (st6, tr6))) ∨
    (TxFromContext ctx = none ∧ e ≠ none ∧ created = PullRequest.zero ∧
      tr6 = tr ++ [Call.BeginTx RepeatableRead]) ∨
    (∃ tx st1 st5 tr5, TxFromContext ctx = none ∧
      pool.BeginTx ctx RepeatableRead st = (.ok tx, st1) ∧
      (recordingService teamStore userStore prStore).CreatePullRequest now randPerm
        (contextWithTx ctx tx) prID prName authorID (st1, tr ++ [Call.BeginTx RepeatableRead])
        = some ((created, e), (st5, tr5)) ∧
      e ≠ none ∧ tr6 = tr5 ++ [Call.Rollback tx]) ∨
    (∃ tx st1 st5 tr5, TxFromContext ctx = none ∧
      pool.BeginTx ctx RepeatableRead st = (.ok tx, st1) ∧
      (recordingService teamStore userStore prStore).CreatePullRequest now randPerm
        (contextWithTx ctx tx) prID prName authorID (st1, tr ++ [Call.BeginTx RepeatableRead])
        = some ((created, none), (st5, tr5)) ∧
      (pool.Commit tx (contextWithTx ctx tx) st5).1 = e ∧
      tr6 = tr5 ++ [Call.Commit tx, Call.Rollback tx]) := by
  rw [create_run_pgx] at h
  cases hTx : TxFromContext ctx with
  | some tx0 =>
    rw [hTx] at h
    exact Or.inl ⟨⟨tx0, rfl⟩, h⟩
  | none =>
    rw [hTx] at h
    simp only at h
    rcases hB : pool.BeginTx ctx RepeatableRead st with ⟨r, st1⟩
    rw [hB] at h
    cases r with
    | error err =>
      simp only [Option.some.injEq, Prod.mk.injEq] at h
      obtain ⟨⟨rfl, rfl⟩, _, rfl⟩ := h
      exact Or.inr (Or.inl ⟨rfl, by simp, rfl, rfl⟩)
    | ok tx =>
      simp only at h
      rcases hRun : (recordingService teamStore userStore prStore).CreatePullRequest now
          randPerm (contextWithTx ctx tx) prID prName authorID
          (st1, tr ++ [Call.BeginTx RepeatableRead]) with _ | ⟨⟨c, e2⟩, st5, tr5⟩
      · rw [hRun] at h; simp at h
      · rw [hRun] at h
        cases e2 with
        | some err =>
          simp only [Option.some.injEq, Prod.mk.injEq] at h
          obtain ⟨⟨rfl, rfl⟩, _, rfl⟩ := h
          exact Or.inr (Or.inr (Or.inl ⟨tx, st1, st5, tr5, rfl, rfl, hRun, by simp, rfl⟩))
        | none =>
          simp only [Option.some.injEq, Prod.mk.injEq] at h
          obtain ⟨⟨rfl, rfl⟩, _, rfl⟩ := h
          exact Or.inr (Or.inr (Or.inr ⟨tx, st1, st5, tr5, rfl, rfl, hRun, rfl, rfl⟩))

/-! ## The storage adapter and the transaction manager -/

/-- `CreateWithMembers` hands back the error of the insert into `teams` as it is. -/
theorem createWithMembers_insert_error {σ : Type} (s : Storage σ) (ctx : Context)
    (team : Team) (st st1 : σ) (err : Err)
    (h : s.pool.Exec (s.getExecutor ctx) ctx queryTeam [.str team.Name] st
      = (.error err, st1)) :
    s.CreateWithMembers ctx team st = (some err, st1) := by
  simp only [Storage.CreateWithMembers, h]

/-- `Create` turns a unique violation of the insert into `pull_requests` into
`ErrPRExists`. -/
theorem create_unique_violation {σ : Type} (s : Storage σ) (ctx : Context)
    (pr : PullRequest) (createdAt : Time) (st st1 : σ) (err : Err)
    (hAt : pr.CreatedAt = some createdAt)
    (h : s.pool.Exec (s.getExecutor ctx) ctx queryCreatePR
      [.str pr.ID, .str pr.Name, .str pr.AuthorID, .str pr.Status, .time createdAt,
        match pr.MergedAt with
        | some t => .time t
        | none => .null] st = (.error err, st1))
    (hCode : errorsAsPgError err = some "23505") :
    s.Create ctx pr st = (some Err.ErrPRExists, st1) := by
  simp only [Storage.Create, hAt, h, hCode, if_true]

theorem onlyOnTx_step (tx : Nat) (tr mid after : List Call) (query : String)
    (args : List Arg) (hmid : mid = tr ++ [Call.Exec (Executor.tx tx) query args])
    (h : OnlyOnTx tx mid after) : OnlyOnTx tx tr after := by
  intro c hc
  rcases h c hc with h1 | h1
  · rw [hmid] at h1
    rcases List.mem_append.mp h1 with h2 | h2
    · exact Or.inl h2
    · exact Or.inr ⟨query, args, List.mem_singleton.mp h2⟩
  · exact Or.inr h1

theorem onlyOnTx_refl (tx : Nat) (tr : List Call) : OnlyOnTx tx tr tr :=
  fun _ hc => Or.inl hc

theorem insertReviewers_on_tx {σ : Type} (pool : Pool σ) (ctx : Context) (tx : Nat)
    (hTx : TxFromContext ctx = some tx) (prID : String) (reviewers : List String) (st : σ)
    (tr : List Call) :
    OnlyOnTx tx tr
      (insertReviewers (NewPgxStorage pool.recording) ctx prID reviewers (st, tr)).2.2 := by
  induction reviewers generalizing st tr with
  | nil => exact onlyOnTx_refl tx tr
  | cons reviewerID rest ih =>
    simp only [insertReviewers, NewPgxStorage, Pool.recording, Storage.getExecutor, hTx,
      recordCall]
    cases hE : (pool.Exec (Executor.tx tx) ctx queryInsertReviewers
        [Arg.str prID, Arg.str reviewerID] st).1 with
    | error err =>
      simp only
      exact onlyOnTx_step tx tr _ _ _ _ rfl (onlyOnTx_refl tx _)
    | ok n =>
      simp only
      exact onlyOnTx_step tx tr _ _ _ _ rfl (ih _ _)

theorem insertMembers_on_tx {σ : Type} (pool : Pool σ) (ctx : Context) (tx : Nat)
    (hTx : TxFromContext ctx = some tx) (teamName : String) (members : List User) (st : σ)
    (tr : List Call) :
    OnlyOnTx tx tr
      (insertMembers (NewPgxStorage pool.recording) ctx teamName members (st, tr)).2.2 := by
  induction members generalizing st tr with
  | nil => exact onlyOnTx_refl tx tr
  | cons member rest ih =>
    simp only [insertMembers, NewPgxStorage, Pool.recording, Storage.getExecutor, hTx,
      recordCall]
    cases hE : (pool.Exec (Executor.tx tx) ctx queryUser
        [Arg.str member.ID, Arg.str member.Name, Arg.str teamName,
          Arg.bool member.IsActive] st).1 with
    | error err =>
      simp only
      exact onlyOnTx_step tx tr _ _ _ _ rfl (onlyOnTx_refl tx _)
    | ok n =>
      simp only
      exact onlyOnTx_step tx tr _ _ _ _ rfl (ih _ _)

theorem create_on_tx {σ : Type} (pool : Pool σ) (ctx : Context) (tx : Nat)
    (hTx : TxFromContext ctx = some tx) (pr : PullRequest) (st : σ) (tr : List Call) :
    OnlyOnTx tx tr ((NewPgxStorage pool.recording).Create ctx pr (st, tr)).2.2 := by
  unfold Storage.Create
  cases hAt : pr.CreatedAt with
  | none => exact onlyOnTx_refl tx tr
  | some createdAt =>
    simp only [NewPgxStorage, Pool.recording, Storage.getExecutor, hTx, recordCall]
    split
    · rename_i err stE hE
      simp only [Prod.mk.injEq] at hE
      obtain ⟨_, hSt⟩ := hE
      have hTrace : OnlyOnTx tx tr stE.2 := by
        rw [← hSt]
        exact onlyOnTx_step tx tr _ _ _ _ rfl (onlyOnTx_refl tx _)
      split
      · split
        · exact hTrace
        · exact hTrace
      · exact hTrace
    · rename_i n stE hE
      simp only [Prod.mk.injEq] at hE
      obtain ⟨_, hSt⟩ := hE
      rw [← hSt]
      exact onlyOnTx_step tx tr _ _ _ _ rfl
        (insertReviewers_on_tx pool ctx tx hTx pr.ID pr.AssignedReviewers _ _)

theorem createWithMembers_on_tx {σ : Type} (pool : Pool σ) (ctx : Context) (tx : Nat)
    (hTx : TxFromContext ctx = some tx) (team : Team) (st : σ) (tr : List Call) :
    OnlyOnTx tx tr ((NewPgxStorage pool.recording).CreateWithMembers ctx team (st, tr)).2.2 := by
  unfold Storage.CreateWithMembers
  simp only [NewPgxStorage, Pool.recording, Storage.getExecutor, hTx, recordCall]
  split
  · rename_i err stE hE
    simp only [Prod.mk.injEq] at hE
    obtain ⟨_, hSt⟩ := hE
    rw [← hSt]
    exact onlyOnTx_step tx tr _ _ _ _ rfl (onlyOnTx_refl tx _)
  · rename_i n stE hE
    simp only [Prod.mk.injEq] at hE
    obtain ⟨_, hSt⟩ := hE
    rw [← hSt]
    exact onlyOnTx_step tx tr _ _ _ _ rfl
      (insertMembers_on_tx pool ctx tx hTx team.Name team.Members _ _)

/-! ## The claims -/

/-- Claim C1. Merge is idempotent. Over a store that reflects `UpdateStatusMerged` in
the next locked read, after a first `MergePullRequest` that returned no error the
second call returns no error, status `MERGED` and the `MergedAt` of the first call;
its only store call is the locked read (no `UpdateStatusMerged` write), and the record
it returns is the stored one, exactly as that read delivers it. -/
theorem merge_idempotent {σ : Type} (teamStore : TeamStorage σ) (userStore : UserStorage σ)
    (prStore : PullRequestStorage σ) (hStore : MergeReflected prStore)
    (now1 now2 : Time) (ctx : Context) (prID : String) (st0 st1 : σ) (tr0 tr1 : List Call)
    (got1 : PullRequest)
    (h1 : (recordingService teamStore userStore prStore).MergePullRequest now1 ctx prID
      (st0, tr0) = some ((got1, none), (st1, tr1))) :
    ∃ got2 st2,
      (recordingService teamStore userStore prStore).MergePullRequest now2 ctx prID
          (st1, tr1)
        = some ((got2, none), (st2, tr1 ++ [Call.GetPullRequestByIDForUpdate prID])) ∧
      got1.Status = PRStatusMerged ∧ got2.Status = PRStatusMerged ∧
      got2.MergedAt = got1.MergedAt ∧
      (prStore.GetPullRequestByIDForUpdate ctx prID st1).1 = .ok got2 := by
  rw [merge_run] at h1
  rcases hGet : prStore.GetPullRequestByIDForUpdate ctx prID st0 with ⟨r, stA⟩
  rw [hGet] at h1
  cases r with
  | error err => simp at h1
  | ok pr =>
    simp only at h1
    by_cases hM : pr.Status = PRStatusMerged
    · rw [if_pos hM] at h1
      simp only [Option.some.injEq, Prod.mk.injEq, and_true] at h1
      obtain ⟨rfl, rfl, _⟩ := h1
      obtain ⟨st2, hAgain⟩ := hStore.read_again ctx prID pr st0 stA hGet
      refine ⟨pr, st2, ?_, hM, hM, rfl, by rw [hAgain]⟩
      rw [merge_run, hAgain]
      simp only [hM, if_true]
    · rw [if_neg hM] at h1
      rcases hUpd : prStore.UpdateStatusMerged ctx prID (some now1) stA with ⟨e, stB⟩
      rw [hUpd] at h1
      cases e with
      | some err => simp at h1
      | none =>
        simp only [Option.some.injEq, Prod.mk.injEq, and_true] at h1
        obtain ⟨rfl, rfl, _⟩ := h1
        obtain ⟨pr2, st3, hRead, hS, hT⟩ :=
          hStore.update_read ctx prID pr now1 st0 stA stB hGet hUpd
        refine ⟨pr2, st3, ?_, rfl, hS, hT, by rw [hRead]⟩
        rw [merge_run, hRead]
        simp only [hS, if_true]

/-- Instance of claim C1 on the in-memory store and sample data. -/
theorem merge_idempotent_witness :
    MergeReflected memPRStore ∧
    (recordingService memTeamStore memUserStore memPRStore).MergePullRequest 200
        Context.Background "p1" (storeOf ["a1", "a2", "a3"] [openPR], [])
      = some ((mergedPR, none), (storeOf ["a1", "a2", "a3"] [mergedPR],
          [Call.GetPullRequestByIDForUpdate "p1", Call.UpdateStatusMerged "p1" (some 200)])) ∧
    ∃ got2 st2,
      (recordingService memTeamStore memUserStore memPRStore).MergePullRequest 300
          Context.Background "p1" (storeOf ["a1", "a2", "a3"] [mergedPR],
            [Call.GetPullRequestByIDForUpdate "p1", Call.UpdateStatusMerged "p1" (some 200)])
        = some ((got2, none), (st2,
            [Call.GetPullRequestByIDForUpdate "p1", Call.UpdateStatusMerged "p1" (some 200)]
              ++ [Call.GetPullRequestByIDForUpdate "p1"])) ∧
      mergedPR.Status = PRStatusMerged ∧ got2.Status = PRStatusMerged ∧
      got2.MergedAt = mergedPR.MergedAt ∧
      (memPRStore.GetPullRequestByIDForUpdate Context.Background "p1"
        (storeOf ["a1", "a2", "a3"] [mergedPR])).1 = .ok got2 :=
  ⟨memPRStore_reflects, by decide,
    merge_idempotent memTeamStore memUserStore memPRStore memPRStore_reflects 200 300
      Context.Background "p1" (storeOf ["a1", "a2", "a3"] [openPR])
      (storeOf ["a1", "a2", "a3"] [mergedPR]) []
      [Call.GetPullRequestByIDForUpdate "p1", Call.UpdateStatusMerged "p1" (some 200)]
      mergedPR (by decide)⟩

/-- Claim C2. If `ReassignReviewer` succeeds, the PR read was open and the replacement
id it returns, which is the one passed to `ReplaceReviewer`, is not the PR author, not
a reviewer assigned before the call, not the outgoing reviewer, and is the id of one of
the active users listed for the outgoing reviewer's team. -/
theorem reassign_replacement {σ : Type} (teamStore : TeamStorage σ)
    (userStore : UserStorage σ) (prStore : PullRequestStorage σ)
    (randPerm : Nat → List Nat) (ctx : Context) (prID oldUserID : String) (st st4 : σ)
    (tr tr4 : List Call) (result : PullRequest) (replacedBy : String)
    (h : (recordingService teamStore userStore prStore).ReassignReviewer randPerm ctx prID
        oldUserID (st, tr) = some ((result, replacedBy, none), (st4, tr4))) :
    ∃ pr st1 oldUser st2 users st3,
      prStore.GetPullRequestByIDForUpdate ctx prID st = (.ok pr, st1) ∧
      pr.Status ≠ PRStatusMerged ∧
      userStore.GetUserByID ctx oldUserID st1 = (.ok oldUser, st2) ∧
      userStore.ListActiveUserByTeam ctx oldUser.TeamName st2 = (.ok users, st3) ∧
      prStore.ReplaceReviewer ctx prID oldUserID replacedBy st3 = (none, st4) ∧
      tr4 = tr ++ [Call.GetPullRequestByIDForUpdate prID, Call.GetUserByID oldUserID,
        Call.ListActiveUserByTeam oldUser.TeamName,
        Call.ReplaceReviewer prID oldUserID replacedBy] ∧
      replacedBy ≠ pr.AuthorID ∧ replacedBy ∉ pr.AssignedReviewers ∧
      replacedBy ≠ oldUserID ∧ ∃ u ∈ users, u.ID = replacedBy := by
  rw [reassign_run] at h
  rcases hGet : prStore.GetPullRequestByIDForUpdate ctx prID st with ⟨r, st1⟩
  rw [hGet] at h
  cases r with
  | error err => simp at h
  | ok pr =>
    simp only at h
    by_cases hM : pr.Status = PRStatusMerged
    · simp [hM] at h
    · rw [if_neg hM] at h
      by_cases hC : (!pr.AssignedReviewers.contains oldUserID) = true
      · rw [if_pos hC] at h; simp at h
      · rw [if_neg hC] at h
        rcases hUser : userStore.GetUserByID ctx oldUserID st1 with ⟨r2, st2⟩
        rw [hUser] at h
        cases r2 with
        | error err => simp at h
        | ok oldUser =>
          simp only at h
          rcases hList : userStore.ListActiveUserByTeam ctx oldUser.TeamName st2 with ⟨r3, st3⟩
          rw [hList] at h
          cases r3 with
          | error err => simp at h
          | ok users =>
            simp only at h
            split at h
            · simp at h
            · cases hCh : chooseReviewers randPerm (filterUsersExclude users
                  ([oldUserID, pr.AuthorID] ++ pr.AssignedReviewers)) 1 with
              | none => rw [hCh] at h; simp at h
              | some ids =>
                rw [hCh] at h
                cases ids with
                | nil => simp at h
                | cons newID rest =>
                  simp only at h
                  rcases hRep : prStore.ReplaceReviewer ctx prID oldUserID newID st3
                    with ⟨e, stE⟩
                  rw [hRep] at h
                  cases e with
                  | some err => simp at h
                  | none =>
                    simp only [Option.some.injEq, Prod.mk.injEq, and_true] at h
                    obtain ⟨⟨_, rfl⟩, rfl, rfl⟩ := h
                    obtain ⟨u, hu, hid⟩ := chooseReviewers_mem _ _ _ _ hCh newID
                      (List.mem_cons_self _ _)
                    rw [mem_filterUsersExclude] at hu
                    obtain ⟨huUsers, huEx⟩ := hu
                    rw [hid] at huEx
                    simp only [List.cons_append, List.nil_append, List.mem_cons,
                      not_or] at huEx
                    exact ⟨pr, st1, oldUser, st2, users, st3, rfl, hM, hUser, hList, hRep, rfl,
                      huEx.2.1, huEx.2.2, huEx.1, u, huUsers, hid⟩

/-- Instance of claim C2 on the in-memory store and sample data. -/
theorem reassign_replacement_witness :
    (recordingService memTeamStore memUserStore memPRStore).ReassignReviewer identityPerm
        Context.Background "p1" "a2" (storeOf ["a1", "a2", "a3", "a4"] [openPR], [])
      = some (({ openPR with AssignedReviewers := ["a4", "a3"] }, "a4", none),
          (storeOf ["a1", "a2", "a3", "a4"] [{ openPR with AssignedReviewers := ["a3", "a4"] }],
            [Call.GetPullRequestByIDForUpdate "p1", Call.GetUserByID "a2",
              Call.ListActiveUserByTeam "team-A", Call.ReplaceReviewer "p1" "a2" "a4"])) ∧
    ∃ pr st1 oldUser st2 users st3,
      memPRStore.GetPullRequestByIDForUpdate Context.Background "p1"
        (storeOf ["a1", "a2", "a3", "a4"] [openPR]) = (.ok pr, st1) ∧
      pr.Status ≠ PRStatusMerged ∧
      memUserStore.GetUserByID Context.Background "a2" st1 = (.ok oldUser, st2) ∧
      memUserStore.ListActiveUserByTeam Context.Background oldUser.TeamName st2
        = (.ok users, st3) ∧
      memPRStore.ReplaceReviewer Context.Background "p1" "a2" "a4" st3
        = (none, storeOf ["a1", "a2", "a3", "a4"]
            [{ openPR with AssignedReviewers := ["a3", "a4"] }]) ∧
      [Call.GetPullRequestByIDForUpdate "p1", Call.GetUserByID "a2",
          Call.ListActiveUserByTeam "team-A", Call.ReplaceReviewer "p1" "a2" "a4"]
        = [] ++ [Call.GetPullRequestByIDForUpdate "p1", Call.GetUserByID "a2",
          Call.ListActiveUserByTeam oldUser.TeamName, Call.ReplaceReviewer "p1" "a2" "a4"] ∧
      "a4" ≠ pr.AuthorID ∧ "a4" ∉ pr.AssignedReviewers ∧ "a4" ≠ "a2" ∧
      ∃ u ∈ users, u.ID = "a4" :=
  ⟨by decide,
    reassign_replacement memTeamStore memUserStore memPRStore identityPerm
      Context.Background "p1" "a2" (storeOf ["a1", "a2", "a3", "a4"] [openPR])
      (storeOf ["a1", "a2", "a3", "a4"] [{ openPR with AssignedReviewers := ["a3", "a4"] }])
      [] _ { openPR with AssignedReviewers := ["a4", "a3"] } "a4" (by decide)⟩

/-- Claim C3. For every PR whose stored status is `MERGED` and every reviewer id,
assigned or not, `ReassignReviewer` fails with `ErrPRMerged`, returns an empty
replacement id and the zero record, and its only store call is the locked read: no
`ReplaceReviewer` is issued. -/
theorem reassign_merged {σ : Type} (teamStore : TeamStorage σ) (userStore : UserStorage σ)
    (prStore : PullRequestStorage σ) (randPerm : Nat → List Nat) (ctx : Context)
    (prID oldUserID : String) (st st1 : σ) (tr : List Call) (pr : PullRequest)
    (hGet : prStore.GetPullRequestByIDForUpdate ctx prID st = (.ok pr, st1))
    (hMerged : pr.Status = PRStatusMerged) :
    (recordingService teamStore userStore prStore).ReassignReviewer randPerm ctx prID
        oldUserID (st, tr)
      = some ((PullRequest.zero, "", some Err.ErrPRMerged),
          (st1, tr ++ [Call.GetPullRequestByIDForUpdate prID])) := by
  rw [reassign_run, hGet]
  simp only [hMerged, if_true]

/-- Instance of claim C3 on the in-memory store and sample data. -/
theorem reassign_merged_witness :
    memPRStore.GetPullRequestByIDForUpdate Context.Background "p1"
        (storeOf ["a1", "a2", "a3", "a4"] [mergedPR])
      = (.ok mergedPR, storeOf ["a1", "a2", "a3", "a4"] [mergedPR]) ∧
    mergedPR.Status = PRStatusMerged ∧
    (recordingService memTeamStore memUserStore memPRStore).ReassignReviewer identityPerm
        Context.Background "p1" "a9" (storeOf ["a1", "a2", "a3", "a4"] [mergedPR], [])
      = some ((PullRequest.zero, "", some Err.ErrPRMerged),
          (storeOf ["a1", "a2", "a3", "a4"] [mergedPR],
            [] ++ [Call.GetPullRequestByIDForUpdate "p1"])) :=
  ⟨rfl, by decide,
    reassign_merged memTeamStore memUserStore memPRStore identityPerm Context.Background
      "p1" "a9" (storeOf ["a1", "a2", "a3", "a4"] [mergedPR])
      (storeOf ["a1", "a2", "a3", "a4"] [mergedPR]) [] mergedPR rfl (by decide)⟩

/-- Claim C4. For every candidate list of length C, every integer quantity Q and every
permutation the random source may produce, `chooseReviewers` returns, and returns
exactly `min(C, max(Q, 0))` ids, each the id of a candidate of the input list; with
`Q <= 0` or no candidate the result is empty. -/
theorem chooseReviewers_card_mem (randPerm : Nat → List Nat) (candidates : List User)
    (quantity : Int) (hRand : ValidRand randPerm) :
    ∃ ids, chooseReviewers randPerm candidates quantity = some ids ∧
      (ids.length : Int) = min (candidates.length : Int) (max quantity 0) ∧
      (∀ id ∈ ids, ∃ u ∈ candidates, u.ID = id) ∧
      ((quantity ≤ 0 ∨ candidates = []) → ids = []) := by
  obtain ⟨ids, hCh, hLen⟩ := chooseReviewers_length randPerm candidates quantity hRand
  refine ⟨ids, hCh, hLen, chooseReviewers_mem randPerm candidates quantity ids hCh, ?_⟩
  intro h
  have hzero : (ids.length : Int) = 0 := by
    rw [hLen]
    rcases h with h | h
    · omega
    · subst h
      simp only [List.length_nil, Nat.cast_zero]
      omega
  exact List.length_eq_zero.mp (by exact_mod_cast hzero)

/-- Instance of claim C4 on the in-memory store and sample data. -/
theorem chooseReviewers_card_mem_witness :
    ValidRand identityPerm ∧
    ∃ ids, chooseReviewers identityPerm [member "a2", member "a3", member "a4"] 2 = some ids ∧
      (ids.length : Int)
        = min (([member "a2", member "a3", member "a4"].length : Nat) : Int) (max 2 0) ∧
      (∀ id ∈ ids, ∃ u ∈ [member "a2", member "a3", member "a4"], u.ID = id) ∧
      (((2 : Int) ≤ 0 ∨ [member "a2", member "a3", member "a4"] = []) → ids = []) :=
  ⟨identityPerm_valid,
    chooseReviewers_card_mem identityPerm [member "a2", member "a3", member "a4"] 2
      identityPerm_valid⟩

/-- Claim C5 as stated fails: two candidates carrying the same id, quantity 2, and the
result lists that id twice. -/
theorem chooseReviewers_dup :
    ValidRand (fun n => List.range n) ∧
    chooseReviewers (fun n => List.range n)
      [{ ID := "u1", Name := "", TeamName := "", IsActive := true },
       { ID := "u1", Name := "", TeamName := "", IsActive := true }] 2 = some ["u1", "u1"] ∧
    ¬ (["u1", "u1"] : List String).Nodup := by
  refine ⟨fun n => List.Perm.refl _, by decide, by decide⟩

/-- Claim C5, amended. For every candidate list whose ids are pairwise distinct, every
quantity and every permutation the random source may produce, `chooseReviewers`
returns pairwise distinct ids. -/
theorem chooseReviewers_nodup (randPerm : Nat → List Nat) (candidates : List User)
    (quantity : Int) (hRand : ValidRand randPerm)
    (hIDs : (candidates.map (fun u => u.ID)).Nodup) :
    ∃ ids, chooseReviewers randPerm candidates quantity = some ids ∧ ids.Nodup := by
  refine ⟨_, chooseReviewers_eq randPerm candidates quantity hRand, ?_⟩
  split
  · exact List.nodup_nil
  · split
    · exact hIDs
    · have hsub : List.Sublist ((randPerm candidates.length).take quantity.toNat)
          (randPerm candidates.length) := List.take_sublist _ _
      refine List.Nodup.map_on ?_ (List.Nodup.sublist hsub (validRand_nodup randPerm hRand _))
      intro x hx y hy hxy
      exact idAt_inj candidates hIDs x y
        (validRand_lt randPerm hRand _ x (List.mem_of_mem_take hx))
        (validRand_lt randPerm hRand _ y (List.mem_of_mem_take hy)) hxy

/-- Instance of claim C5 as amended on the in-memory store and sample data. -/
theorem chooseReviewers_nodup_witness :
    ValidRand identityPerm ∧
    ([member "a2", member "a3", member "a4"].map (fun u => u.ID)).Nodup ∧
    ∃ ids, chooseReviewers identityPerm [member "a2", member "a3", member "a4"] 2 = some ids ∧
      ids.Nodup :=
  ⟨identityPerm_valid, by decide,
    chooseReviewers_nodup identityPerm [member "a2", member "a3", member "a4"] 2
      identityPerm_valid (by decide)⟩

/-- Claim C6. For a PR id not yet stored, a known author and the active users listed
for the author's team, the sampling returns `min(2, k)` reviewers, `k` the number of
listed users other than the author; none is the author and each is the id of a listed
user; and when the store's `Create` of the record built from them succeeds,
`CreatePullRequest` returns that record, reviewers included, with no error. -/
theorem create_assigns_up_to_two {σ : Type} (teamStore : TeamStorage σ)
    (userStore : UserStorage σ) (prStore : PullRequestStorage σ) (now : Time)
    (randPerm : Nat → List Nat) (ctx : Context) (prID prName authorID : String)
    (st st1 st2 st3 : σ) (tr : List Call) (err : Err) (author : User) (users : List User)
    (hRand : ValidRand randPerm)
    (hGet : prStore.GetPullRequestByID ctx prID st = (.error err, st1))
    (hAbsent : errorsIs err Err.ErrNotFound = true)
    (hUser : userStore.GetUserByID ctx authorID st1 = (.ok author, st2))
    (hList : userStore.ListActiveUserByTeam ctx author.TeamName st2 = (.ok users, st3)) :
    ∃ reviewers : List String,
      chooseReviewers randPerm (filterUsersExclude users [authorID]) 2 = some reviewers ∧
      reviewers.length = min 2 (users.filter (fun u => decide (u.ID ≠ authorID))).length ∧
      (∀ r ∈ reviewers, r ≠ authorID ∧ ∃ u ∈ users, u.ID = r) ∧
      ∀ st4,
        prStore.Create ctx (newPullRequest now prID prName authorID reviewers) st3
          = (none, st4) →
        (recordingService teamStore userStore prStore).CreatePullRequest now randPerm ctx
            prID prName authorID (st, tr)
          = some ((newPullRequest now prID prName authorID reviewers, none),
              (st4, tr ++ [Call.GetPullRequestByID prID, Call.GetUserByID authorID,
                Call.ListActiveUserByTeam author.TeamName,
                Call.Create (newPullRequest now prID prName authorID reviewers)])) := by
  obtain ⟨ids, hCh, hLen⟩ :=
    chooseReviewers_length randPerm (filterUsersExclude users [authorID]) 2 hRand
  have hMem := chooseReviewers_mem randPerm (filterUsersExclude users [authorID]) 2 ids hCh
  refine ⟨ids, hCh, ?_, ?_, ?_⟩
  · have hf : filterUsersExclude users [authorID]
        = users.filter (fun u => decide (u.ID ≠ authorID)) := by
      rw [filterUsersExclude_eq_filter]
      congr 1
      funext u
      simp
    rw [hf] at hLen
    omega
  · intro r hr
    obtain ⟨u, hu, hid⟩ := hMem r hr
    rw [mem_filterUsersExclude] at hu
    refine ⟨?_, u, hu.1, hid⟩
    have := hu.2
    rw [hid] at this
    simpa using this
  · intro st4 hCr
    rw [create_run, hGet]
    simp only [hAbsent, Bool.not_true, Bool.false_eq_true, if_false, hUser, hList, hCh, hCr]

/-- Instance of claim C6 on the in-memory store: three active members `a1`, `a2`, `a3`
and a pull request `p1` by `a1`; the reviewers are `a2` and `a3`. -/
theorem create_assigns_up_to_two_witness :
    ValidRand identityPerm ∧
    memPRStore.GetPullRequestByID Context.Background "p1" (storeOf ["a1", "a2", "a3"] [])
      = (.error Err.ErrNotFound, storeOf ["a1", "a2", "a3"] []) ∧
    errorsIs Err.ErrNotFound Err.ErrNotFound = true ∧
    memUserStore.GetUserByID Context.Background "a1" (storeOf ["a1", "a2", "a3"] [])
      = (.ok (member "a1"), storeOf ["a1", "a2", "a3"] []) ∧
    memUserStore.ListActiveUserByTeam Context.Background (member "a1").TeamName
        (storeOf ["a1", "a2", "a3"] [])
      = (.ok [member "a1", member "a2", member "a3"], storeOf ["a1", "a2", "a3"] []) ∧
    (recordingService memTeamStore memUserStore memPRStore).CreatePullRequest 100
        identityPerm Context.Background "p1" "title" "a1" (storeOf ["a1", "a2", "a3"] [], [])
      = some ((openPR, none), (storeOf ["a1", "a2", "a3"] [openPR],
          [Call.GetPullRequestByID "p1", Call.GetUserByID "a1",
            Call.ListActiveUserByTeam "team-A", Call.Create openPR])) := by
  refine ⟨identityPerm_valid, rfl, by decide, rfl, rfl, ?_⟩
  obtain ⟨reviewers, hCh, _, _, hRun⟩ :=
    create_assigns_up_to_two memTeamStore memUserStore memPRStore 100 identityPerm
      Context.Background "p1" "title" "a1" (storeOf ["a1", "a2", "a3"] [])
      (storeOf ["a1", "a2", "a3"] []) (storeOf ["a1", "a2", "a3"] [])
      (storeOf ["a1", "a2", "a3"] []) [] Err.ErrNotFound (member "a1")
      [member "a1", member "a2", member "a3"] identityPerm_valid rfl (by decide) rfl rfl
  have hSample : chooseReviewers identityPerm
      (filterUsersExclude [member "a1", member "a2", member "a3"] ["a1"]) 2
      = some ["a2", "a3"] := by decide
  rw [hSample] at hCh
  cases hCh
  exact hRun (storeOf ["a1", "a2", "a3"] [openPR]) rfl

/-- Claim C7. For a stored PR whose status is not `MERGED`, a successful
`MergePullRequest` makes, after the locked read, exactly one `UpdateStatusMerged` call
with that PR id and the non-nil timestamp `now`, and returns the stored record with
`Status = MERGED`, `MergedAt = now` and every other field unchanged; if the locked
lookup fails, that error is returned with the zero record and no write is made. -/
theorem merge_open_writes_once {σ : Type} (teamStore : TeamStorage σ)
    (userStore : UserStorage σ) (prStore : PullRequestStorage σ) (now : Time)
    (ctx : Context) (prID : String) (st : σ) (tr : List Call) :
    (∀ pr st1 result st2 tr2,
      prStore.GetPullRequestByIDForUpdate ctx prID st = (.ok pr, st1) →
      pr.Status ≠ PRStatusMerged →
      (recordingService teamStore userStore prStore).MergePullRequest now ctx prID (st, tr)
        = some ((result, none), (st2, tr2)) →
      prStore.UpdateStatusMerged ctx prID (some now) st1 = (none, st2) ∧
      tr2 = tr ++ [Call.GetPullRequestByIDForUpdate prID,
        Call.UpdateStatusMerged prID (some now)] ∧
      result = { pr with Status := PRStatusMerged, MergedAt := some now }) ∧
    (∀ err st1,
      prStore.GetPullRequestByIDForUpdate ctx prID st = (.error err, st1) →
      (recordingService teamStore userStore prStore).MergePullRequest now ctx prID (st, tr)
        = some ((PullRequest.zero, some err),
            (st1, tr ++ [Call.GetPullRequestByIDForUpdate prID]))) := by
  constructor
  · intro pr st1 result st2 tr2 hGet hOpen h
    rw [merge_run, hGet] at h
    simp only [hOpen, if_false] at h
    rcases hUpd : prStore.UpdateStatusMerged ctx prID (some now) st1 with ⟨e, stB⟩
    rw [hUpd] at h
    cases e with
    | some err => simp at h
    | none =>
      simp only [Option.some.injEq, Prod.mk.injEq, and_true] at h
      obtain ⟨rfl, rfl, rfl⟩ := h
      exact ⟨rfl, rfl, rfl⟩
  · intro err st1 hGet
    rw [merge_run, hGet]

/-- Instance of claim C7 on the in-memory store and sample data. -/
theorem merge_open_writes_once_witness :
    (memPRStore.GetPullRequestByIDForUpdate Context.Background "p1"
        (storeOf ["a1", "a2", "a3"] [openPR])
      = (.ok openPR, storeOf ["a1", "a2", "a3"] [openPR]) ∧
    openPR.Status ≠ PRStatusMerged ∧
    (recordingService memTeamStore memUserStore memPRStore).MergePullRequest 200
        Context.Background "p1" (storeOf ["a1", "a2", "a3"] [openPR], [])
      = some ((mergedPR, none), (storeOf ["a1", "a2", "a3"] [mergedPR],
          [Call.GetPullRequestByIDForUpdate "p1", Call.UpdateStatusMerged "p1" (some 200)])) ∧
    (memPRStore.UpdateStatusMerged Context.Background "p1" (some 200)
        (storeOf ["a1", "a2", "a3"] [openPR])
      = (none, storeOf ["a1", "a2", "a3"] [mergedPR]) ∧
    [Call.GetPullRequestByIDForUpdate "p1", Call.UpdateStatusMerged "p1" (some 200)]
      = [] ++ [Call.GetPullRequestByIDForUpdate "p1",
        Call.UpdateStatusMerged "p1" (some 200)] ∧
    mergedPR = { openPR with Status := PRStatusMerged, MergedAt := some 200 })) ∧
    (memPRStore.GetPullRequestByIDForUpdate Context.Background "p9"
        (storeOf ["a1", "a2", "a3"] [openPR])
      = (.error Err.ErrNotFound, storeOf ["a1", "a2", "a3"] [openPR]) ∧
    (recordingService memTeamStore memUserStore memPRStore).MergePullRequest 200
        Context.Background "p9" (storeOf ["a1", "a2", "a3"] [openPR], [])
      = some ((PullRequest.zero, some Err.ErrNotFound),
          (storeOf ["a1", "a2", "a3"] [openPR],
            [] ++ [Call.GetPullRequestByIDForUpdate "p9"]))) :=
  ⟨⟨rfl, by decide, by decide,
      (merge_open_writes_once memTeamStore memUserStore memPRStore 200 Context.Background
        "p1" (storeOf ["a1", "a2", "a3"] [openPR]) []).1 openPR
        (storeOf ["a1", "a2", "a3"] [openPR]) mergedPR (storeOf ["a1", "a2", "a3"] [mergedPR])
        [Call.GetPullRequestByIDForUpdate "p1", Call.UpdateStatusMerged "p1" (some 200)]
        rfl (by decide) (by decide)⟩,
    ⟨rfl,
      (merge_open_writes_once memTeamStore memUserStore memPRStore 200 Context.Background
        "p9" (storeOf ["a1", "a2", "a3"] [openPR]) []).2 Err.ErrNotFound
        (storeOf ["a1", "a2", "a3"] [openPR]) rfl⟩⟩

/-- Claim C8. `filterUsersExclude` returns exactly the users of the input whose id does
not occur in the exclusion list, in their original relative order; an empty exclusion
list returns the input unchanged, and an exclusion list holding every user id returns
the empty list. -/
theorem filterUsersExclude_spec (users : List User) (excludeIDs : List String) :
    filterUsersExclude users excludeIDs
        = users.filter (fun u => decide (u.ID ∉ excludeIDs)) ∧
      filterUsersExclude users [] = users ∧
      ((∀ u ∈ users, u.ID ∈ excludeIDs) → filterUsersExclude users excludeIDs = []) := by
  refine ⟨filterUsersExclude_eq_filter users excludeIDs, ?_, ?_⟩
  · simp [filterUsersExclude]
  · intro h
    rw [filterUsersExclude_eq_filter, List.filter_eq_nil_iff]
    intro u hu
    simpa using h u hu

/-- Instance of claim C8 on the in-memory store and sample data. -/
theorem filterUsersExclude_spec_witness :
    filterUsersExclude [member "u1", member "u2", member "u3"] ["u2"]
      = [member "u1", member "u3"] ∧
    (∀ u ∈ [member "u1", member "u2"], u.ID ∈ ["u1", "u2", "u3"]) ∧
    filterUsersExclude [member "u1", member "u2"] ["u1", "u2", "u3"] = [] :=
  ⟨(filterUsersExclude_spec [member "u1", member "u2", member "u3"] ["u2"]).1.trans
      (by decide),
    by decide,
    (filterUsersExclude_spec [member "u1", member "u2"] ["u1", "u2", "u3"]).2.2
      (by decide)⟩

/-- Claim C9. For every non-empty candidate list and every quantity greater than or
equal to its length, `chooseReviewers` returns every candidate id: the result contains
the id of each candidate and has as many entries as there are candidates. -/
theorem chooseReviewers_all (randPerm : Nat → List Nat) (candidates : List User)
    (quantity : Int) (hne : candidates ≠ []) (hq : (candidates.length : Int) ≤ quantity) :
    ∃ ids, chooseReviewers randPerm candidates quantity = some ids ∧
      (∀ u ∈ candidates, u.ID ∈ ids) ∧ ids.length = candidates.length := by
  have hlen : 0 < candidates.length := List.length_pos.mpr hne
  refine ⟨candidates.map (fun u => u.ID), ?_, ?_, by simp⟩
  · unfold chooseReviewers
    have h1 : ¬ (candidates.length = 0 ∨ quantity ≤ 0) := by omega
    rw [if_neg h1, if_pos hq, foldl_ids_eq_map]
    simp
  · intro u hu
    exact List.mem_map.mpr ⟨u, hu, rfl⟩

/-- Instance of claim C9 on the in-memory store and sample data. -/
theorem chooseReviewers_all_witness :
    [member "u1", member "u2"] ≠ [] ∧
    (([member "u1", member "u2"].length : Nat) : Int) ≤ 5 ∧
    ∃ ids, chooseReviewers identityPerm [member "u1", member "u2"] 5 = some ids ∧
      (∀ u ∈ [member "u1", member "u2"], u.ID ∈ ids) ∧
      ids.length = [member "u1", member "u2"].length :=
  ⟨by decide, by decide,
    chooseReviewers_all identityPerm [member "u1", member "u2"] 5 (by decide) (by decide)⟩

/-- Claim C10. For an open PR and an assigned outgoing reviewer whose user record
resolves, over a store whose `ReplaceReviewer` never reports `ErrNoCandidate` itself,
`ReassignReviewer` fails with `ErrNoCandidate` if and only if every active user
listed for the outgoing reviewer's team is the outgoing reviewer, the author or an
assigned reviewer; in that case the calls are the three reads, no `ReplaceReviewer`,
and the replacement id returned is empty. -/
theorem reassign_noCandidate_iff {σ : Type} (teamStore : TeamStorage σ)
    (userStore : UserStorage σ) (prStore : PullRequestStorage σ)
    (randPerm : Nat → List Nat) (ctx : Context) (prID oldUserID : String)
    (st st1 st2 st3 : σ) (tr : List Call) (pr : PullRequest) (oldUser : User)
    (users : List User)
    (hGet : prStore.GetPullRequestByIDForUpdate ctx prID st = (.ok pr, st1))
    (hOpen : pr.Status ≠ PRStatusMerged)
    (hAssigned : oldUserID ∈ pr.AssignedReviewers)
    (hUser : userStore.GetUserByID ctx oldUserID st1 = (.ok oldUser, st2))
    (hList : userStore.ListActiveUserByTeam ctx oldUser.TeamName st2 = (.ok users, st3))
    (hReplace : ∀ newID e, (prStore.ReplaceReviewer ctx prID oldUserID newID st3).1 = some e →
      errorsIs e Err.ErrNoCandidate = false) :
    ((∃ out e, (recordingService teamStore userStore prStore).ReassignReviewer randPerm ctx
          prID oldUserID (st, tr) = some out ∧ out.1.2.2 = some e ∧
          errorsIs e Err.ErrNoCandidate = true)
      ↔ ∀ u ∈ users, u.ID = oldUserID ∨ u.ID = pr.AuthorID ∨ u.ID ∈ pr.AssignedReviewers) ∧
    ((∀ u ∈ users, u.ID = oldUserID ∨ u.ID = pr.AuthorID ∨ u.ID ∈ pr.AssignedReviewers) →
      (recordingService teamStore userStore prStore).ReassignReviewer randPerm ctx prID
          oldUserID (st, tr)
        = some ((PullRequest.zero, "", some Err.ErrNoCandidate),
            (st3, tr ++ [Call.GetPullRequestByIDForUpdate prID, Call.GetUserByID oldUserID,
              Call.ListActiveUserByTeam oldUser.TeamName]))) := by
  have hC : ¬ ((!pr.AssignedReviewers.contains oldUserID) = true) := by
    simpa using hAssigned
  have hrun := reassign_run teamStore userStore prStore randPerm ctx prID oldUserID st tr
  rw [hGet] at hrun
  simp only [hOpen, if_false, hC, hUser, hList, Bool.false_eq_true] at hrun
  have hEmpty : (filterUsersExclude users
      ([oldUserID, pr.AuthorID] ++ pr.AssignedReviewers)).length = 0 ↔
      ∀ u ∈ users, u.ID = oldUserID ∨ u.ID = pr.AuthorID ∨ u.ID ∈ pr.AssignedReviewers := by
    rw [List.length_eq_zero, List.eq_nil_iff_forall_not_mem]
    constructor
    · intro h u hu
      have := h u
      rw [mem_filterUsersExclude] at this
      simp only [not_and, not_not] at this
      simpa using this hu
    · intro h u hmem
      rw [mem_filterUsersExclude] at hmem
      exact hmem.2 (by simpa using h u hmem.1)
  have hBack : (∀ u ∈ users, u.ID = oldUserID ∨ u.ID = pr.AuthorID ∨
      u.ID ∈ pr.AssignedReviewers) →
      (recordingService teamStore userStore prStore).ReassignReviewer randPerm ctx prID
          oldUserID (st, tr)
        = some ((PullRequest.zero, "", some Err.ErrNoCandidate),
            (st3, tr ++ [Call.GetPullRequestByIDForUpdate prID, Call.GetUserByID oldUserID,
              Call.ListActiveUserByTeam oldUser.TeamName])) := by
    intro h
    rw [hrun, if_pos (hEmpty.mpr h)]
  refine ⟨⟨?_, ?_⟩, hBack⟩
  · rintro ⟨out, e, hout, he, hIs⟩
    by_contra hNot
    have hne : ¬ (filterUsersExclude users
        ([oldUserID, pr.AuthorID] ++ pr.AssignedReviewers)).length = 0 :=
      fun h => hNot (hEmpty.mp h)
    rw [hrun, if_neg hne] at hout
    cases hCh : chooseReviewers randPerm (filterUsersExclude users
        ([oldUserID, pr.AuthorID] ++ pr.AssignedReviewers)) 1 with
    | none => rw [hCh] at hout; simp at hout
    | some ids =>
      rw [hCh] at hout
      cases ids with
      | nil => simp at hout
      | cons newID rest =>
        simp only at hout
        rcases hRep : prStore.ReplaceReviewer ctx prID oldUserID newID st3 with ⟨e2, stE⟩
        rw [hRep] at hout
        cases e2 with
        | none =>
          simp only [Option.some.injEq] at hout
          subst hout
          simp at he
        | some err =>
          simp only [Option.some.injEq] at hout
          subst hout
          simp only [Option.some.injEq] at he
          subst he
          have := hReplace newID err (by rw [hRep])
          rw [this] at hIs
          exact Bool.false_ne_true hIs
  · intro h
    exact ⟨_, Err.ErrNoCandidate, hBack h, rfl, by decide⟩

/-- Instance of claim C10 on the in-memory store and sample data. -/
theorem reassign_noCandidate_iff_witness :
    memPRStore.GetPullRequestByIDForUpdate Context.Background "p1"
        (storeOf ["a1", "a2", "a3"] [openPR])
      = (.ok openPR, storeOf ["a1", "a2", "a3"] [openPR]) ∧
    openPR.Status ≠ PRStatusMerged ∧
    "a2" ∈ openPR.AssignedReviewers ∧
    memUserStore.GetUserByID Context.Background "a2" (storeOf ["a1", "a2", "a3"] [openPR])
      = (.ok (member "a2"), storeOf ["a1", "a2", "a3"] [openPR]) ∧
    memUserStore.ListActiveUserByTeam Context.Background (member "a2").TeamName
        (storeOf ["a1", "a2", "a3"] [openPR])
      = (.ok [member "a1", member "a2", member "a3"],
          storeOf ["a1", "a2", "a3"] [openPR]) ∧
    (∀ u ∈ [member "a1", member "a2", member "a3"],
      u.ID = "a2" ∨ u.ID = openPR.AuthorID ∨ u.ID ∈ openPR.AssignedReviewers) ∧
    (recordingService memTeamStore memUserStore memPRStore).ReassignReviewer identityPerm
        Context.Background "p1" "a2" (storeOf ["a1", "a2", "a3"] [openPR], [])
      = some ((PullRequest.zero, "", some Err.ErrNoCandidate),
          (storeOf ["a1", "a2", "a3"] [openPR],
            [] ++ [Call.GetPullRequestByIDForUpdate "p1", Call.GetUserByID "a2",
              Call.ListActiveUserByTeam (member "a2").TeamName])) :=
  ⟨rfl, by decide, by decide, rfl, rfl, by decide,
    (reassign_noCandidate_iff memTeamStore memUserStore memPRStore identityPerm
      Context.Background "p1" "a2" (storeOf ["a1", "a2", "a3"] [openPR])
      (storeOf ["a1", "a2", "a3"] [openPR]) (storeOf ["a1", "a2", "a3"] [openPR])
      (storeOf ["a1", "a2", "a3"] [openPR]) [] openPR (member "a2")
      [member "a1", member "a2", member "a3"] rfl (by decide) (by decide) rfl rfl
      (fun newID e h => memPRStore_replace_errors Context.Background "p1" "a2" newID
        (storeOf ["a1", "a2", "a3"] [openPR]) e h)).2 (by decide)⟩

/-- Claim C11. For every stored PR whose status is not `MERGED` and every reviewer id
that does not occur in its `AssignedReviewers`, `ReassignReviewer` fails with
`ErrNotAssigned`; the locked read is its only store call, so no user is resolved and
`ReplaceReviewer` is not called. -/
theorem reassign_not_assigned {σ : Type} (teamStore : TeamStorage σ)
    (userStore : UserStorage σ) (prStore : PullRequestStorage σ)
    (randPerm : Nat → List Nat) (ctx : Context) (prID oldUserID : String) (st st1 : σ)
    (tr : List Call) (pr : PullRequest)
    (hGet : prStore.GetPullRequestByIDForUpdate ctx prID st = (.ok pr, st1))
    (hOpen : pr.Status ≠ PRStatusMerged)
    (hNot : oldUserID ∉ pr.AssignedReviewers) :
    (recordingService teamStore userStore prStore).ReassignReviewer randPerm ctx prID
        oldUserID (st, tr)
      = some ((PullRequest.zero, "", some Err.ErrNotAssigned),
          (st1, tr ++ [Call.GetPullRequestByIDForUpdate prID])) := by
  have hC : (!pr.AssignedReviewers.contains oldUserID) = true := by simpa using hNot
  rw [reassign_run, hGet]
  simp only [hOpen, if_false, hC, if_true]

/-- Instance of claim C11 on the in-memory store and sample data. -/
theorem reassign_not_assigned_witness :
    memPRStore.GetPullRequestByIDForUpdate Context.Background "p1"
        (storeOf ["a1", "a2", "a3", "a4"] [openPR])
      = (.ok openPR, storeOf ["a1", "a2", "a3", "a4"] [openPR]) ∧
    openPR.Status ≠ PRStatusMerged ∧
    "a4" ∉ openPR.AssignedReviewers ∧
    (recordingService memTeamStore memUserStore memPRStore).ReassignReviewer identityPerm
        Context.Background "p1" "a4" (storeOf ["a1", "a2", "a3", "a4"] [openPR], [])
      = some ((PullRequest.zero, "", some Err.ErrNotAssigned),
          (storeOf ["a1", "a2", "a3", "a4"] [openPR],
            [Call.GetPullRequestByIDForUpdate "p1"])) :=
  ⟨rfl, by decide, by decide,
    reassign_not_assigned memTeamStore memUserStore memPRStore identityPerm
      Context.Background "p1" "a4" (storeOf ["a1", "a2", "a3", "a4"] [openPR])
      (storeOf ["a1", "a2", "a3", "a4"] [openPR]) [] openPR rfl (by decide) (by decide)⟩

/-- Claim C12. After a successful `ReassignReviewer(prID, old)` on a PR read with
reviewer list `R`, the last store call is `ReplaceReviewer(prID, old, new)` with the
`new` that is returned; the returned record is the one read with only its reviewer
list changed, and that list has the length of `R`, contains `new`, does not contain
`old` when `old` occurred once in `R`, and keeps every other reviewer at its position. -/
theorem reassign_replaces_in_place {σ : Type} (teamStore : TeamStorage σ)
    (userStore : UserStorage σ) (prStore : PullRequestStorage σ)
    (randPerm : Nat → List Nat) (ctx : Context) (prID oldUserID : String) (st st4 : σ)
    (tr tr4 : List Call) (result : PullRequest) (replacedBy : String)
    (h : (recordingService teamStore userStore prStore).ReassignReviewer randPerm ctx prID
        oldUserID (st, tr) = some ((result, replacedBy, none), (st4, tr4))) :
    ∃ pr st1 teamName,
      prStore.GetPullRequestByIDForUpdate ctx prID st = (.ok pr, st1) ∧
      tr4 = tr ++ [Call.GetPullRequestByIDForUpdate prID, Call.GetUserByID oldUserID,
        Call.ListActiveUserByTeam teamName,
        Call.ReplaceReviewer prID oldUserID replacedBy] ∧
      result.AssignedReviewers.length = pr.AssignedReviewers.length ∧
      replacedBy ∈ result.AssignedReviewers ∧
      (pr.AssignedReviewers.count oldUserID = 1 → oldUserID ∉ result.AssignedReviewers) ∧
      (∀ (i : Nat) (r : String), pr.AssignedReviewers[i]? = some r → r ≠ oldUserID →
        result.AssignedReviewers[i]? = some r) ∧
      result = { pr with AssignedReviewers := result.AssignedReviewers } := by
  obtain ⟨pr, st1, oldUser, st2, users, st3, rest, hGet, _, hIn, _, _, hCh, _, hTr, hRev,
      hRes⟩ :=
    reassign_success teamStore userStore prStore randPerm ctx prID oldUserID st st4 tr tr4
      result replacedBy h
  obtain ⟨hneOld, _, _, _⟩ :=
    replacement_excluded randPerm users oldUserID pr.AuthorID pr.AssignedReviewers rest
      replacedBy hCh
  refine ⟨pr, st1, oldUser.TeamName, hGet, hTr, ?_, ?_, ?_, ?_, hRes⟩
  · rw [hRev]; exact replaceLoop_length _ _ _
  · rw [hRev]; exact replaceLoop_mem_new _ _ _ hIn
  · intro hcount
    rw [hRev]
    exact replaceLoop_not_mem_old _ _ _ hcount hneOld
  · intro i r hi hr
    rw [hRev]
    exact replaceLoop_getElem? _ _ _ i r hi hr

/-- Instance of claim C12 on the in-memory store and sample data. -/
theorem reassign_replaces_in_place_witness :
    (recordingService memTeamStore memUserStore memPRStore).ReassignReviewer identityPerm
        Context.Background "p1" "a2" (storeOf ["a1", "a2", "a3", "a4"] [openPR], [])
      = some (({ openPR with AssignedReviewers := ["a4", "a3"] }, "a4", none),
          (storeOf ["a1", "a2", "a3", "a4"] [{ openPR with AssignedReviewers := ["a3", "a4"] }],
            [Call.GetPullRequestByIDForUpdate "p1", Call.GetUserByID "a2",
              Call.ListActiveUserByTeam "team-A", Call.ReplaceReviewer "p1" "a2" "a4"])) ∧
    ∃ pr st1 teamName,
      memPRStore.GetPullRequestByIDForUpdate Context.Background "p1"
        (storeOf ["a1", "a2", "a3", "a4"] [openPR]) = (.ok pr, st1) ∧
      [Call.GetPullRequestByIDForUpdate "p1", Call.GetUserByID "a2",
          Call.ListActiveUserByTeam "team-A", Call.ReplaceReviewer "p1" "a2" "a4"]
        = [] ++ [Call.GetPullRequestByIDForUpdate "p1", Call.GetUserByID "a2",
          Call.ListActiveUserByTeam teamName, Call.ReplaceReviewer "p1" "a2" "a4"] ∧
      ["a4", "a3"].length = pr.AssignedReviewers.length ∧
      "a4" ∈ ["a4", "a3"] ∧
      (pr.AssignedReviewers.count "a2" = 1 → "a2" ∉ ["a4", "a3"]) ∧
      (∀ (i : Nat) (r : String), pr.AssignedReviewers[i]? = some r → r ≠ "a2" →
        ["a4", "a3"][i]? = some r) ∧
      ({ openPR with AssignedReviewers := ["a4", "a3"] } : PullRequest)
        = { pr with AssignedReviewers := ["a4", "a3"] } :=
  ⟨by decide,
    reassign_replaces_in_place memTeamStore memUserStore memPRStore identityPerm
      Context.Background "p1" "a2" (storeOf ["a1", "a2", "a3", "a4"] [openPR])
      (storeOf ["a1", "a2", "a3", "a4"] [{ openPR with AssignedReviewers := ["a3", "a4"] }])
      [] _ { openPR with AssignedReviewers := ["a4", "a3"] } "a4" (by decide)⟩

/-- Claim C13. `CreatePullRequest` fails with `ErrPRExists` when the store already
holds the PR id, after the lookup alone (the author is not resolved, `Create` is not
called); a lookup error other than `ErrNotFound` is returned unchanged; and when the
PR is absent and resolving the author fails (`ErrNotFound` for an unknown author) that
error is returned and `Create` is not called. -/
theorem create_rejects {σ : Type} (teamStore : TeamStorage σ) (userStore : UserStorage σ)
    (prStore : PullRequestStorage σ) (now : Time) (randPerm : Nat → List Nat)
    (ctx : Context) (prID prName authorID : String) (st : σ) (tr : List Call) :
    (∀ existing st1, prStore.GetPullRequestByID ctx prID st = (.ok existing, st1) →
      (recordingService teamStore userStore prStore).CreatePullRequest now randPerm ctx
          prID prName authorID (st, tr)
        = some ((PullRequest.zero, some Err.ErrPRExists),
            (st1, tr ++ [Call.GetPullRequestByID prID]))) ∧
    (∀ err st1, prStore.GetPullRequestByID ctx prID st = (.error err, st1) →
      errorsIs err Err.ErrNotFound = false →
      (recordingService teamStore userStore prStore).CreatePullRequest now randPerm ctx
          prID prName authorID (st, tr)
        = some ((PullRequest.zero, some err), (st1, tr ++ [Call.GetPullRequestByID prID]))) ∧
    (∀ err st1 authorErr st2, prStore.GetPullRequestByID ctx prID st = (.error err, st1) →
      errorsIs err Err.ErrNotFound = true →
      userStore.GetUserByID ctx authorID st1 = (.error authorErr, st2) →
      (recordingService teamStore userStore prStore).CreatePullRequest now randPerm ctx
          prID prName authorID (st, tr)
        = some ((PullRequest.zero, some authorErr),
            (st2, tr ++ [Call.GetPullRequestByID prID, Call.GetUserByID authorID]))) := by
  refine ⟨?_, ?_, ?_⟩
  · intro existing st1 hGet
    rw [create_run, hGet]
  · intro err st1 hGet hIs
    rw [create_run, hGet]
    simp only [hIs, Bool.not_false, if_true]
  · intro err st1 authorErr st2 hGet hIs hUser
    rw [create_run, hGet]
    simp only [hIs, Bool.not_true, Bool.false_eq_true, if_false, hUser]

/-- Instance of claim C13 on the in-memory store and sample data. An existing id with an unknown author, an unreachable store, and an absent id with an unknown author. -/
theorem create_rejects_witness :
    (memPRStore.GetPullRequestByID Context.Background "p1" (storeOf ["a1", "a2"] [openPR])
        = (.ok openPR, storeOf ["a1", "a2"] [openPR]) ∧
      (recordingService memTeamStore memUserStore memPRStore).CreatePullRequest 100
          identityPerm Context.Background "p1" "title" "nobody"
          (storeOf ["a1", "a2"] [openPR], [])
        = some ((PullRequest.zero, some Err.ErrPRExists),
            (storeOf ["a1", "a2"] [openPR], [Call.GetPullRequestByID "p1"]))) ∧
    (unreachablePRStore.GetPullRequestByID Context.Background "p1" (storeOf ["a1", "a2"] [])
        = (.error (Err.other "connection refused"), storeOf ["a1", "a2"] []) ∧
      errorsIs (Err.other "connection refused") Err.ErrNotFound = false ∧
      (recordingService memTeamStore memUserStore unreachablePRStore).CreatePullRequest 100
          identityPerm Context.Background "p1" "title" "a1" (storeOf ["a1", "a2"] [], [])
        = some ((PullRequest.zero, some (Err.other "connection refused")),
            (storeOf ["a1", "a2"] [], [Call.GetPullRequestByID "p1"]))) ∧
    (memPRStore.GetPullRequestByID Context.Background "p1" (storeOf ["a1", "a2"] [])
        = (.error Err.ErrNotFound, storeOf ["a1", "a2"] []) ∧
      errorsIs Err.ErrNotFound Err.ErrNotFound = true ∧
      memUserStore.GetUserByID Context.Background "nobody" (storeOf ["a1", "a2"] [])
        = (.error Err.ErrNotFound, storeOf ["a1", "a2"] []) ∧
      (recordingService memTeamStore memUserStore memPRStore).CreatePullRequest 100
          identityPerm Context.Background "p1" "title" "nobody" (storeOf ["a1", "a2"] [], [])
        = some ((PullRequest.zero, some Err.ErrNotFound),
            (storeOf ["a1", "a2"] [],
              [Call.GetPullRequestByID "p1", Call.GetUserByID "nobody"]))) :=
  ⟨⟨rfl,
      (create_rejects memTeamStore memUserStore memPRStore 100 identityPerm
        Context.Background "p1" "title" "nobody" (storeOf ["a1", "a2"] [openPR]) []).1
        openPR (storeOf ["a1", "a2"] [openPR]) rfl⟩,
    ⟨rfl, by decide,
      (create_rejects memTeamStore memUserStore unreachablePRStore 100 identityPerm
        Context.Background "p1" "title" "a1" (storeOf ["a1", "a2"] []) []).2.1
        (Err.other "connection refused") (storeOf ["a1", "a2"] []) rfl (by decide)⟩,
    ⟨rfl, by decide, rfl,
      (create_rejects memTeamStore memUserStore memPRStore 100 identityPerm
        Context.Background "p1" "title" "nobody" (storeOf ["a1", "a2"] []) []).2.2
        Err.ErrNotFound (storeOf ["a1", "a2"] []) Err.ErrNotFound (storeOf ["a1", "a2"] [])
        rfl (by decide) rfl⟩⟩

/-- Claim C14. When `TeamExists` reports true, `CreateTeam` fails with `ErrTeamExists`
and `CreateWithMembers` is not called; when it reports false, `CreateWithMembers` is
called with the given team and, once it succeeded, the result of `GetWithMembers` for
the team name is returned; with no storage failure the error is `ErrTeamExists`
exactly when `TeamExists` reported true. -/
theorem createTeam_exists_guard {σ : Type} (teamStore : TeamStorage σ)
    (userStore : UserStorage σ) (prStore : PullRequestStorage σ) (ctx : Context)
    (team : Team) (st : σ) (tr : List Call) :
    (∀ st1, teamStore.TeamExists ctx team.Name st = (.ok true, st1) →
      (recordingService teamStore userStore prStore).CreateTeam ctx team (st, tr)
        = some (.error Err.ErrTeamExists, (st1, tr ++ [Call.TeamExists team.Name]))) ∧
    (∀ st1 st2, teamStore.TeamExists ctx team.Name st = (.ok false, st1) →
      teamStore.CreateWithMembers ctx team st1 = (none, st2) →
      (recordingService teamStore userStore prStore).CreateTeam ctx team (st, tr)
        = some ((teamStore.GetWithMembers ctx team.Name st2).1,
            ((teamStore.GetWithMembers ctx team.Name st2).2,
              tr ++ [Call.TeamExists team.Name, Call.CreateWithMembers team,
                Call.GetWithMembers team.Name]))) ∧
    (∀ b st1, teamStore.TeamExists ctx team.Name st = (.ok b, st1) →
      (b = false → ∃ st2 found st3, teamStore.CreateWithMembers ctx team st1 = (none, st2) ∧
        teamStore.GetWithMembers ctx team.Name st2 = (.ok found, st3)) →
      ((∃ e w, (recordingService teamStore userStore prStore).CreateTeam ctx team (st, tr)
          = some (.error e, w) ∧ errorsIs e Err.ErrTeamExists = true) ↔ b = true)) := by
  refine ⟨?_, ?_, ?_⟩
  · intro st1 hEx
    rw [createTeam_run, hEx]
  · intro st1 st2 hEx hCr
    rw [createTeam_run, hEx]
    simp only [hCr]
  · intro b st1 hEx hOk
    cases b with
    | true =>
      refine ⟨fun _ => rfl, fun _ => ⟨Err.ErrTeamExists,
        (st1, tr ++ [Call.TeamExists team.Name]), ?_, by decide⟩⟩
      rw [createTeam_run, hEx]
    | false =>
      obtain ⟨st2, found, st3, hCr, hGet⟩ := hOk rfl
      constructor
      · rintro ⟨e, w, hrun, _⟩
        rw [createTeam_run, hEx] at hrun
        simp only [hCr, hGet] at hrun
        simp at hrun
      · intro h
        exact absurd h (by decide)

/-- Instance of claim C14 on the in-memory store and sample data. -/
theorem createTeam_exists_guard_witness :
    (memTeamStore.TeamExists Context.Background teamA.Name storeWithTeam
        = (.ok true, storeWithTeam) ∧
      (recordingService memTeamStore memUserStore memPRStore).CreateTeam Context.Background
          teamA (storeWithTeam, [])
        = some (.error Err.ErrTeamExists, (storeWithTeam, [Call.TeamExists "team-A"]))) ∧
    (memTeamStore.TeamExists Context.Background teamA.Name (storeOf [] [])
        = (.ok false, storeOf [] []) ∧
      memTeamStore.CreateWithMembers Context.Background teamA (storeOf [] [])
        = (none, storeWithTeam) ∧
      (recordingService memTeamStore memUserStore memPRStore).CreateTeam Context.Background
          teamA (storeOf [] [], [])
        = some (.ok teamA, (storeWithTeam,
            [Call.TeamExists "team-A", Call.CreateWithMembers teamA,
              Call.GetWithMembers "team-A"]))) ∧
    (memTeamStore.GetWithMembers Context.Background teamA.Name storeWithTeam
        = (.ok teamA, storeWithTeam) ∧
      ((∃ e w, (recordingService memTeamStore memUserStore memPRStore).CreateTeam
            Context.Background teamA (storeOf [] [], []) = some (.error e, w) ∧
          errorsIs e Err.ErrTeamExists = true) ↔ false = true)) :=
  ⟨⟨rfl,
      (createTeam_exists_guard memTeamStore memUserStore memPRStore Context.Background
        teamA storeWithTeam []).1 storeWithTeam rfl⟩,
    ⟨rfl, rfl,
      (createTeam_exists_guard memTeamStore memUserStore memPRStore Context.Background
        teamA (storeOf [] []) []).2.1 (storeOf [] []) storeWithTeam rfl rfl⟩,
    ⟨rfl,
      (createTeam_exists_guard memTeamStore memUserStore memPRStore Context.Background
        teamA (storeOf [] []) []).2.2 false (storeOf [] []) rfl
        (fun _ => ⟨storeWithTeam, teamA, storeWithTeam, rfl, rfl⟩)⟩⟩

/-- Claim C15. Reviewer ids stay unique: when the users listed for the author's team
have pairwise distinct ids, the reviewer list `CreatePullRequest` samples, hands to
`Create` and returns is pairwise distinct; and when the reviewer list of the PR read is
pairwise distinct, the list a successful `ReassignReviewer` returns is pairwise
distinct. -/
theorem reviewers_stay_distinct {σ : Type} (teamStore : TeamStorage σ)
    (userStore : UserStorage σ) (prStore : PullRequestStorage σ)
    (randPerm : Nat → List Nat) (ctx : Context) :
    (∀ (now : Time) (prID prName authorID : String) (st st1 st2 st3 : σ) (tr : List Call)
        (err : Err) (author : User) (users : List User),
      ValidRand randPerm →
      prStore.GetPullRequestByID ctx prID st = (.error err, st1) →
      errorsIs err Err.ErrNotFound = true →
      userStore.GetUserByID ctx authorID st1 = (.ok author, st2) →
      userStore.ListActiveUserByTeam ctx author.TeamName st2 = (.ok users, st3) →
      (users.map (fun u => u.ID)).Nodup →
      ∃ reviewers, chooseReviewers randPerm (filterUsersExclude users [authorID]) 2
          = some reviewers ∧ reviewers.Nodup ∧
        ∀ e st4,
          prStore.Create ctx (newPullRequest now prID prName authorID reviewers) st3
            = (e, st4) →
          ∃ created,
            (recordingService teamStore userStore prStore).CreatePullRequest now randPerm
                ctx prID prName authorID (st, tr)
              = some ((created, e),
                  (st4, tr ++ [Call.GetPullRequestByID prID, Call.GetUserByID authorID,
                    Call.ListActiveUserByTeam author.TeamName,
                    Call.Create (newPullRequest now prID prName authorID reviewers)])) ∧
            created.AssignedReviewers.Nodup) ∧
    (∀ (prID oldUserID : String) (st st1 st4 : σ) (tr tr4 : List Call)
        (pr result : PullRequest) (replacedBy : String),
      prStore.GetPullRequestByIDForUpdate ctx prID st = (.ok pr, st1) →
      pr.AssignedReviewers.Nodup →
      (recordingService teamStore userStore prStore).ReassignReviewer randPerm ctx prID
        oldUserID (st, tr) = some ((result, replacedBy, none), (st4, tr4)) →
      result.AssignedReviewers.Nodup) := by
  constructor
  · intro now prID prName authorID st st1 st2 st3 tr err author users hRand hGet hIs hUser
      hList hNodup
    obtain ⟨reviewers, hCh, hRev⟩ :=
      chooseReviewers_distinct randPerm (filterUsersExclude users [authorID]) 2 hRand
        (filterUsersExclude_ids_nodup users [authorID] hNodup)
    refine ⟨reviewers, hCh, hRev, ?_⟩
    intro e st4 hCr
    rw [create_run, hGet]
    simp only [hIs, Bool.not_true, Bool.false_eq_true, if_false, hUser, hList, hCh, hCr]
    cases e with
    | some err2 => exact ⟨PullRequest.zero, rfl, List.nodup_nil⟩
    | none => exact ⟨newPullRequest now prID prName authorID reviewers, rfl, hRev⟩
  · intro prID oldUserID st st1 st4 tr tr4 pr result replacedBy hGet hNodup h
    obtain ⟨pr2, st1b, oldUser, st2, users, st3, rest, hGet2, _, _, _, _, hCh, _, _, hRev,
        _⟩ :=
      reassign_success teamStore userStore prStore randPerm ctx prID oldUserID st st4 tr tr4
        result replacedBy h
    rw [hGet] at hGet2
    simp only [Prod.mk.injEq, Except.ok.injEq] at hGet2
    obtain ⟨rfl, rfl⟩ := hGet2
    obtain ⟨_, _, hNotIn, _⟩ :=
      replacement_excluded randPerm users oldUserID pr.AuthorID pr.AssignedReviewers rest
        replacedBy hCh
    rw [hRev]
    exact replaceLoop_nodup _ _ _ hNodup hNotIn

/-- Instance of claim C15 on the in-memory store and sample data. -/
theorem reviewers_stay_distinct_witness :
    (ValidRand identityPerm ∧
      memPRStore.GetPullRequestByID Context.Background "p1" (storeOf ["a1", "a2", "a3"] [])
        = (.error Err.ErrNotFound, storeOf ["a1", "a2", "a3"] []) ∧
      errorsIs Err.ErrNotFound Err.ErrNotFound = true ∧
      memUserStore.GetUserByID Context.Background "a1" (storeOf ["a1", "a2", "a3"] [])
        = (.ok (member "a1"), storeOf ["a1", "a2", "a3"] []) ∧
      memUserStore.ListActiveUserByTeam Context.Background (member "a1").TeamName
          (storeOf ["a1", "a2", "a3"] [])
        = (.ok [member "a1", member "a2", member "a3"], storeOf ["a1", "a2", "a3"] []) ∧
      ([member "a1", member "a2", member "a3"].map (fun u => u.ID)).Nodup ∧
      ∃ reviewers,
        chooseReviewers identityPerm
          (filterUsersExclude [member "a1", member "a2", member "a3"] ["a1"]) 2
          = some reviewers ∧ reviewers.Nodup ∧
        ∀ e st4,
          memPRStore.Create Context.Background
            (newPullRequest 100 "p1" "title" "a1" reviewers) (storeOf ["a1", "a2", "a3"] [])
            = (e, st4) →
          ∃ created,
            (recordingService memTeamStore memUserStore memPRStore).CreatePullRequest 100
                identityPerm Context.Background "p1" "title" "a1"
                (storeOf ["a1", "a2", "a3"] [], [])
              = some ((created, e),
                  (st4, [] ++ [Call.GetPullRequestByID "p1", Call.GetUserByID "a1",
                    Call.ListActiveUserByTeam (member "a1").TeamName,
                    Call.Create (newPullRequest 100 "p1" "title" "a1" reviewers)])) ∧
            created.AssignedReviewers.Nodup) ∧
    (memPRStore.GetPullRequestByIDForUpdate Context.Background "p1"
          (storeOf ["a1", "a2", "a3", "a4"] [openPR])
        = (.ok openPR, storeOf ["a1", "a2", "a3", "a4"] [openPR]) ∧
      openPR.AssignedReviewers.Nodup ∧
      (recordingService memTeamStore memUserStore memPRStore).ReassignReviewer identityPerm
          Context.Background "p1" "a2" (storeOf ["a1", "a2", "a3", "a4"] [openPR], [])
        = some (({ openPR with AssignedReviewers := ["a4", "a3"] }, "a4", none),
            (storeOf ["a1", "a2", "a3", "a4"]
              [{ openPR with AssignedReviewers := ["a3", "a4"] }],
              [Call.GetPullRequestByIDForUpdate "p1", Call.GetUserByID "a2",
                Call.ListActiveUserByTeam "team-A", Call.ReplaceReviewer "p1" "a2" "a4"])) ∧
      (["a4", "a3"] : List String).Nodup) :=
  ⟨⟨identityPerm_valid, rfl, by decide, rfl, rfl, by decide,
      (reviewers_stay_distinct memTeamStore memUserStore memPRStore identityPerm
        Context.Background).1 100 "p1" "title" "a1" (storeOf ["a1", "a2", "a3"] [])
        (storeOf ["a1", "a2", "a3"] []) (storeOf ["a1", "a2", "a3"] [])
        (storeOf ["a1", "a2", "a3"] []) [] Err.ErrNotFound (member "a1")
        [member "a1", member "a2", member "a3"] identityPerm_valid rfl (by decide) rfl rfl
        (by decide)⟩,
    ⟨rfl, by decide, by decide,
      (reviewers_stay_distinct memTeamStore memUserStore memPRStore identityPerm
        Context.Background).2 "p1" "a2" (storeOf ["a1", "a2", "a3", "a4"] [openPR])
        (storeOf ["a1", "a2", "a3", "a4"] [openPR])
        (storeOf ["a1", "a2", "a3", "a4"] [{ openPR with AssignedReviewers := ["a3", "a4"] }])
        []
        [Call.GetPullRequestByIDForUpdate "p1", Call.GetUserByID "a2",
          Call.ListActiveUserByTeam "team-A", Call.ReplaceReviewer "p1" "a2" "a4"]
        openPR { openPR with AssignedReviewers := ["a4", "a3"] } "a4" rfl (by decide)
        (by decide)⟩⟩

/-- Claim C16 fails for teams: on a database that already holds the team row, the
insert of `CreateWithMembers` is refused with SQLSTATE 23505 and the method returns that
driver error, which is not `ErrTeamExists`; `Create` on a database that already holds
the pull-request row returns `ErrPRExists`. -/
theorem createWithMembers_keeps_driver_error :
    memPool.Exec ((NewPgxStorage memPool).getExecutor Context.Background)
        Context.Background queryTeam [.str teamA.Name] dbWithTeam
      = (.error (Err.pgError "23505"), dbWithTeam) ∧
    (NewPgxStorage memPool).CreateWithMembers Context.Background teamA dbWithTeam
      = (some (Err.pgError "23505"), dbWithTeam) ∧
    errorsIs (Err.pgError "23505") Err.ErrTeamExists = false ∧
    (NewPgxStorage memPool).Create Context.Background openPR dbWithPR
      = (some Err.ErrPRExists, dbWithPR) :=
  ⟨rfl,
    createWithMembers_insert_error (NewPgxStorage memPool) Context.Background teamA
      dbWithTeam dbWithTeam (Err.pgError "23505") rfl,
    by decide,
    create_unique_violation (NewPgxStorage memPool) Context.Background openPR 100 dbWithPR
      dbWithPR (Err.pgError "23505") rfl rfl rfl⟩

/-- Claim C17. In a freshly begun transaction, when `fn` returns an error `TxManager.WithTx`
returns that error unchanged, and what it adds after `fn` is the `Rollback` alone, no
`Commit`: the state left is the one `Rollback` makes of the state `fn` left. `Commit` is
called when `fn` returns nil, and its result is returned. When `BeginTx` fails `fn`
does not run. -/
theorem withTx_error_rolls_back {σ ρ : Type} (pool : Pool σ) (ctx : Context)
    (fn : Context → ρ × (σ × List Call) → Option (Option Err × (ρ × (σ × List Call))))
    (captured : ρ) (st : σ) (tr : List Call) (hNoTx : TxFromContext ctx = none) :
    (∀ tx st1 e captured2 st2 tr2,
      pool.BeginTx ctx RepeatableRead st = (.ok tx, st1) →
      fn (contextWithTx ctx tx) (captured, (st1, tr ++ [Call.BeginTx RepeatableRead]))
        = some (some e, (captured2, (st2, tr2))) →
      (NewTxManager pool.recording).WithTx ctx fn (captured, (st, tr))
        = some (some e, (captured2,
            ((pool.Rollback tx (contextWithTx ctx tx) st2).2, tr2 ++ [Call.Rollback tx])))) ∧
    (∀ tx st1 captured2 st2 tr2,
      pool.BeginTx ctx RepeatableRead st = (.ok tx, st1) →
      fn (contextWithTx ctx tx) (captured, (st1, tr ++ [Call.BeginTx RepeatableRead]))
        = some (none, (captured2, (st2, tr2))) →
      (NewTxManager pool.recording).WithTx ctx fn (captured, (st, tr))
        = some ((pool.Commit tx (contextWithTx ctx tx) st2).1, (captured2,
            ((pool.Rollback tx (contextWithTx ctx tx)
                (pool.Commit tx (contextWithTx ctx tx) st2).2).2,
              tr2 ++ [Call.Commit tx, Call.Rollback tx])))) ∧
    (∀ err st1,
      pool.BeginTx ctx RepeatableRead st = (.error err, st1) →
      (NewTxManager pool.recording).WithTx ctx fn (captured, (st, tr))
        = some (some err, (captured, (st1, tr ++ [Call.BeginTx RepeatableRead])))) := by
  refine ⟨?_, ?_, ?_⟩
  · intro tx st1 e captured2 st2 tr2 hBegin hFn
    simp only [TxManager.WithTx, hNoTx, NewTxManager, Pool.recording]
    rw [recordCall_eq _ _ st tr _ st1 hBegin]
    simp only [hFn, recordCall]
  · intro tx st1 captured2 st2 tr2 hBegin hFn
    simp only [TxManager.WithTx, hNoTx, NewTxManager, Pool.recording]
    rw [recordCall_eq _ _ st tr _ st1 hBegin]
    simp only [hFn, recordCall]
    simp
  · intro err st1 hBegin
    simp only [TxManager.WithTx, hNoTx, NewTxManager, Pool.recording]
    rw [recordCall_eq _ _ st tr _ st1 hBegin]

/-- Instance of claim C17 on the in-memory store and sample data. `Create` of a record listing a reviewer twice fails on the second reviewer row; the database is left empty. -/
theorem withTx_error_rolls_back_witness :
    TxFromContext Context.Background = none ∧
    memPool.BeginTx Context.Background RepeatableRead emptyDB
      = (.ok 1, { rows := [], pending := some [] }) ∧
    createFn dupPR (contextWithTx Context.Background 1)
        ((), ({ rows := [], pending := some [] }, [] ++ [Call.BeginTx RepeatableRead]))
      = some (some (Err.pgError "23505"),
          ((), ({ rows := [], pending := some [insertP1, insertP1A2] },
            [Call.BeginTx RepeatableRead,
              Call.Exec (Executor.tx 1) insertP1.1 insertP1.2,
              Call.Exec (Executor.tx 1) insertP1A2.1 insertP1A2.2,
              Call.Exec (Executor.tx 1) insertP1A2.1 insertP1A2.2]))) ∧
    (NewTxManager memPool.recording).WithTx Context.Background (createFn dupPR)
        ((), (emptyDB, []))
      = some (some (Err.pgError "23505"),
          ((), (emptyDB,
            [Call.BeginTx RepeatableRead,
              Call.Exec (Executor.tx 1) insertP1.1 insertP1.2,
              Call.Exec (Executor.tx 1) insertP1A2.1 insertP1A2.2,
              Call.Exec (Executor.tx 1) insertP1A2.1 insertP1A2.2]
              ++ [Call.Rollback 1]))) :=
  ⟨rfl, rfl, by decide,
    (withTx_error_rolls_back memPool Context.Background (createFn dupPR) () emptyDB []
      rfl).1 1 { rows := [], pending := some [] } (Err.pgError "23505") ()
      { rows := [], pending := some [insertP1, insertP1A2] }
      [Call.BeginTx RepeatableRead,
        Call.Exec (Executor.tx 1) insertP1.1 insertP1.2,
        Call.Exec (Executor.tx 1) insertP1A2.1 insertP1A2.2,
        Call.Exec (Executor.tx 1) insertP1A2.1 insertP1A2.2]
      rfl (by decide)⟩

/-- Claim C18. With a context that already carries a transaction `TxManager.WithTx` is
`fn(ctx)` on the same context and state: no transaction is begun, none is committed or
rolled back. On that context `getExecutor` is the transaction, and it is the pool only
for a context that carries none; the statements `Create` and `CreateWithMembers` send
with that context all run on that transaction. -/
theorem withTx_reuses_open_tx {σ ρ : Type} (pool : Pool σ) (ctx : Context) (tx : Nat)
    (fn : Context → ρ × σ → Option (Option Err × (ρ × σ))) (state : ρ × σ)
    (hTx : TxFromContext ctx = some tx) :
    (NewTxManager pool).WithTx ctx fn state = fn ctx state ∧
    (NewPgxStorage pool).getExecutor ctx = Executor.tx tx ∧
    (∀ ctx2, TxFromContext ctx2 = none →
      (NewPgxStorage pool).getExecutor ctx2 = Executor.pool) ∧
    (∀ pr st tr,
      OnlyOnTx tx tr ((NewPgxStorage pool.recording).Create ctx pr (st, tr)).2.2) ∧
    (∀ team st tr,
      OnlyOnTx tx tr
        ((NewPgxStorage pool.recording).CreateWithMembers ctx team (st, tr)).2.2) := by
  refine ⟨?_, ?_, ?_, ?_, ?_⟩
  · simp only [TxManager.WithTx, hTx]
  · simp only [Storage.getExecutor, hTx]
  · intro ctx2 h
    simp only [Storage.getExecutor, h]
  · intro pr st tr
    exact create_on_tx pool ctx tx hTx pr st tr
  · intro team st tr
    exact createWithMembers_on_tx pool ctx tx hTx team st tr

/-- Instance of claim C18 on the in-memory store and sample data. -/
theorem withTx_reuses_open_tx_witness :
    TxFromContext txContext = some 7 ∧
    (NewTxManager memPool.recording).WithTx txContext (createFn openPR) ((), (emptyDB, []))
      = createFn openPR txContext ((), (emptyDB, [])) ∧
    (NewPgxStorage memPool.recording).getExecutor txContext = Executor.tx 7 ∧
    (∀ ctx2, TxFromContext ctx2 = none →
      (NewPgxStorage memPool.recording).getExecutor ctx2 = Executor.pool) ∧
    (∀ pr st tr,
      OnlyOnTx 7 tr
        ((NewPgxStorage memPool.recording.recording).Create txContext pr (st, tr)).2.2) ∧
    (∀ team st tr,
      OnlyOnTx 7 tr
        ((NewPgxStorage memPool.recording.recording).CreateWithMembers txContext team
          (st, tr)).2.2) :=
  ⟨rfl,
    withTx_reuses_open_tx memPool.recording txContext 7 (createFn openPR) ((), (emptyDB, []))
      rfl⟩

/-- Claim C19 as stated fails on its last clause: with the transaction manager of the
`Storage` over a driver whose commit fails, `CreatePullRequest` returns the commit error
together with the record it built and handed to `Create`, which is not the zero
`PullRequest`. -/
theorem create_commit_failure_returns_record :
    ((pgxService memTeamStore memUserStore memPRStore failingCommitPool).CreatePullRequest
        100 identityPerm Context.Background "p1" "title" "a1"
        (storeOf ["a1", "a2", "a3"] [], [])).map (fun r => (r.1, r.2.2))
      = some ((openPR, some (Err.other "commit failed")),
          [Call.BeginTx RepeatableRead, Call.GetPullRequestByID "p1", Call.GetUserByID "a1",
            Call.ListActiveUserByTeam "team-A", Call.Create openPR, Call.Commit 1,
            Call.Rollback 1]) ∧
    openPR ≠ PullRequest.zero := by
  decide

/-- Claim C19, amended. Under the transaction manager that `cmd/app/main.go` gives the
service: a successful `CreatePullRequest` hands to `Create`, as its last store call, a
record with the given id, title and author, status `OPEN`, creation time `now`, no merge
time and the sampled reviewers, and returns that same record; a run that fails without
reaching `Commit` (at `BeginTx`, the lookup, the author, the listing or `Create`) returns
the zero `PullRequest`; a run whose `Commit` fails returns the error of the commit
together with the record it built and handed to `Create`. -/
theorem create_returns_record_built {σ : Type} (teamStore : TeamStorage σ)
    (userStore : UserStorage σ) (prStore : PullRequestStorage σ) (pool : Pool σ)
    (now : Time) (randPerm : Nat → List Nat) (ctx : Context)
    (prID prName authorID : String) (st st6 : σ) (tr tr6 : List Call)
    (created : PullRequest) (e : Option Err)
    (h : (pgxService teamStore userStore prStore pool).CreatePullRequest now randPerm ctx
        prID prName authorID (st, tr) = some ((created, e), (st6, tr6))) :
    ∃ calls : List Call, tr6 = tr ++ calls ∧
      (e = none →
        ∃ (ctx2 : Context) (author : User) (st2 : σ) (users : List User) (st3 st4 : σ),
          userStore.ListActiveUserByTeam ctx2 author.TeamName st2 = (.ok users, st3) ∧
          chooseReviewers randPerm (filterUsersExclude users [authorID]) 2
            = some created.AssignedReviewers ∧
          prStore.Create ctx2 created st3 = (none, st4) ∧
          ((ctx2 = ctx ∧
              calls = [Call.GetPullRequestByID prID, Call.GetUserByID authorID,
                Call.ListActiveUserByTeam author.TeamName, Call.Create created]) ∨
            ∃ tx, ctx2 = contextWithTx ctx tx ∧
              calls = [Call.BeginTx RepeatableRead, Call.GetPullRequestByID prID,
                Call.GetUserByID authorID, Call.ListActiveUserByTeam author.TeamName,
                Call.Create created, Call.Commit tx, Call.Rollback tx]) ∧
          created.ID = prID ∧ created.Name = prName ∧ created.AuthorID = authorID ∧
          created.Status = PRStatusOpen ∧ created.CreatedAt = some now ∧
          created.MergedAt = none) ∧
      (e ≠ none → (∀ tx, Call.Commit tx ∉ calls) → created = PullRequest.zero) ∧
      (e ≠ none → ∀ tx, Call.Commit tx ∈ calls →
        ∃ (author : User) (reviewers : List String) (st3 st4 : σ),
          prStore.Create (contextWithTx ctx tx) created st3 = (none, st4) ∧
          (pool.Commit tx (contextWithTx ctx tx) st4).1 = e ∧
          calls = [Call.BeginTx RepeatableRead, Call.GetPullRequestByID prID,
            Call.GetUserByID authorID, Call.ListActiveUserByTeam author.TeamName,
            Call.Create created, Call.Commit tx, Call.Rollback tx] ∧
          created = newPullRequest now prID prName authorID reviewers ∧
          created ≠ PullRequest.zero) := by
  have hBuilt : ∀ reviewers : List String,
      newPullRequest now prID prName authorID reviewers ≠ PullRequest.zero := by
    intro reviewers hEq
    have hStatus := congrArg PullRequest.Status hEq
    revert hStatus
    simp only [newPullRequest, PullRequest.zero]
    decide
  rcases create_outcome_pgx teamStore userStore prStore pool now randPerm ctx prID prName
      authorID st st6 tr tr6 created e h with
    ⟨_, hRun⟩ | ⟨_, hne, hzero, hTr⟩ | ⟨tx, st1, st5, tr5, _, _, hRun, hne, hTr⟩ |
    ⟨tx, st1, st5, tr5, _, _, hRun, hCommit, hTr⟩
  · obtain ⟨calls, hCalls, hNoCommit⟩ := create_calls teamStore userStore prStore now
      randPerm ctx prID prName authorID st st6 tr tr6 created e hRun
    refine ⟨calls, hCalls, ?_, ?_, ?_⟩
    · intro he
      rcases create_outcome teamStore userStore prStore now randPerm ctx prID prName authorID
          st st6 tr tr6 created e hRun with ⟨hne, _⟩ | ⟨_, err, st1, author, st2, users, st3,
          reviewers, _, _, _, hList, hCh, hCreated, hCr, hTr⟩
      · exact absurd he hne
      · refine ⟨ctx, author, st2, users, st3, st6, hList, ?_, hCr, Or.inl ⟨rfl, ?_⟩, ?_⟩
        · rw [hCh, hCreated]; rfl
        · exact List.append_cancel_left (hCalls.symm.trans hTr)
        · subst hCreated
          exact ⟨rfl, rfl, rfl, rfl, rfl, rfl⟩
    · intro hne _
      rcases create_outcome teamStore userStore prStore now randPerm ctx prID prName authorID
          st st6 tr tr6 created e hRun with ⟨_, hzero⟩ | ⟨he, _⟩
      · exact hzero
      · exact absurd he hne
    · intro _ tx hMem
      exact absurd hMem (hNoCommit tx)
  · refine ⟨[Call.BeginTx RepeatableRead], hTr, fun he => absurd he hne, fun _ _ => hzero, ?_⟩
    intro _ tx hMem
    simp at hMem
  · obtain ⟨calls, hCalls, hNoCommit⟩ := create_calls teamStore userStore prStore now
      randPerm (contextWithTx ctx tx) prID prName authorID st1 st5
      (tr ++ [Call.BeginTx RepeatableRead]) tr5 created e hRun
    refine ⟨[Call.BeginTx RepeatableRead] ++ calls ++ [Call.Rollback tx], ?_,
      fun he => absurd he hne, ?_, ?_⟩
    · rw [hTr, hCalls]; simp
    · intro _ _
      rcases create_outcome teamStore userStore prStore now randPerm (contextWithTx ctx tx)
          prID prName authorID st1 st5 (tr ++ [Call.BeginTx RepeatableRead]) tr5 created e hRun
        with ⟨_, hzero⟩ | ⟨he, _⟩
      · exact hzero
      · exact absurd he hne
    · intro _ tx2 hMem
      simp only [List.mem_append, List.mem_singleton, reduceCtorEq, false_or, or_false]
        at hMem
      exact absurd hMem (hNoCommit tx2)
  · rcases create_outcome teamStore userStore prStore now randPerm (contextWithTx ctx tx)
        prID prName authorID st1 st5 (tr ++ [Call.BeginTx RepeatableRead]) tr5 created none
        hRun with ⟨hne, _⟩ | ⟨_, err, st2, author, st3, users, st4, reviewers, _, _, _, hList,
        hCh, hCreated, hCr, hTr5⟩
    · exact absurd rfl hne
    · have hCallsEq : tr6 = tr ++ [Call.BeginTx RepeatableRead, Call.GetPullRequestByID prID,
          Call.GetUserByID authorID, Call.ListActiveUserByTeam author.TeamName,
          Call.Create created, Call.Commit tx, Call.Rollback tx] := by
        rw [hTr, hTr5]; simp
      refine ⟨_, hCallsEq, ?_, ?_, ?_⟩
      · intro _
        refine ⟨contextWithTx ctx tx, author, st3, users, st4, st5, hList, ?_, hCr,
          Or.inr ⟨tx, rfl, rfl⟩, ?_⟩
        · rw [hCh, hCreated]; rfl
        · subst hCreated
          exact ⟨rfl, rfl, rfl, rfl, rfl, rfl⟩
      · intro _ hNo
        exact absurd (by simp) (hNo tx)
      · intro _ tx2 hMem
        have htx : tx2 = tx := by simpa using hMem
        subst htx
        exact ⟨author, reviewers, st4, st5, hCr, hCommit, rfl, hCreated,
          hCreated ▸ hBuilt reviewers⟩

/-- Instance of claim C19, amended, on the in-memory store and sample data, with a driver
whose commit succeeds. -/
theorem create_returns_record_built_witness :
    (pgxService memTeamStore memUserStore memPRStore storePool).CreatePullRequest 100
        identityPerm Context.Background "p1" "title" "a1" (storeOf ["a1", "a2", "a3"] [], [])
      = some ((openPR, none), (storeOf ["a1", "a2", "a3"] [openPR],
          [Call.BeginTx RepeatableRead, Call.GetPullRequestByID "p1", Call.GetUserByID "a1",
            Call.ListActiveUserByTeam "team-A", Call.Create openPR, Call.Commit 1,
            Call.Rollback 1])) ∧
    ∃ calls : List Call,
      [Call.BeginTx RepeatableRead, Call.GetPullRequestByID "p1", Call.GetUserByID "a1",
          Call.ListActiveUserByTeam "team-A", Call.Create openPR, Call.Commit 1,
          Call.Rollback 1] = [] ++ calls ∧
      ((none : Option Err) = none →
        ∃ (ctx2 : Context) (author : User) (st2 : MemStore) (users : List User)
            (st3 st4 : MemStore),
          memUserStore.ListActiveUserByTeam ctx2 author.TeamName st2 = (.ok users, st3) ∧
          chooseReviewers identityPerm (filterUsersExclude users ["a1"]) 2
            = some openPR.AssignedReviewers ∧
          memPRStore.Create ctx2 openPR st3 = (none, st4) ∧
          ((ctx2 = Context.Background ∧
              calls = [Call.GetPullRequestByID "p1", Call.GetUserByID "a1",
                Call.ListActiveUserByTeam author.TeamName, Call.Create openPR]) ∨
            ∃ tx, ctx2 = contextWithTx Context.Background tx ∧
              calls = [Call.BeginTx RepeatableRead, Call.GetPullRequestByID "p1",
                Call.GetUserByID "a1", Call.ListActiveUserByTeam author.TeamName,
                Call.Create openPR, Call.Commit tx, Call.Rollback tx]) ∧
          openPR.ID = "p1" ∧ openPR.Name = "title" ∧ openPR.AuthorID = "a1" ∧
          openPR.Status = PRStatusOpen ∧ openPR.CreatedAt = some 100 ∧
          openPR.MergedAt = none) ∧
      ((none : Option Err) ≠ none → (∀ tx, Call.Commit tx ∉ calls) →
        openPR = PullRequest.zero) ∧
      ((none : Option Err) ≠ none → ∀ tx, Call.Commit tx ∈ calls →
        ∃ (author : User) (reviewers : List String) (st3 st4 : MemStore),
          memPRStore.Create (contextWithTx Context.Background tx) openPR st3 = (none, st4) ∧
          (storePool.Commit tx (contextWithTx Context.Background tx) st4).1 = none ∧
          calls = [Call.BeginTx RepeatableRead, Call.GetPullRequestByID "p1",
            Call.GetUserByID "a1", Call.ListActiveUserByTeam author.TeamName,
            Call.Create openPR, Call.Commit tx, Call.Rollback tx] ∧
          openPR = newPullRequest 100 "p1" "title" "a1" reviewers ∧
          openPR ≠ PullRequest.zero) :=
  ⟨by decide,
    create_returns_record_built memTeamStore memUserStore memPRStore storePool 100
      identityPerm Context.Background "p1" "title" "a1" (storeOf ["a1", "a2", "a3"] [])
      (storeOf ["a1", "a2", "a3"] [openPR]) []
      [Call.BeginTx RepeatableRead, Call.GetPullRequestByID "p1", Call.GetUserByID "a1",
        Call.ListActiveUserByTeam "team-A", Call.Create openPR, Call.Commit 1,
        Call.Rollback 1] openPR none (by decide)⟩

/-- Claim C20. When the user store does not resolve the user id (`ErrNotFound` for an
unknown id) `SetIsActive` returns that error and no update is issued; when the user is
resolved and the update succeeds, the user is returned with `IsActive` set to the
requested value and `ID`, `Name` and `TeamName` as stored. -/
theorem setIsActive_spec {σ : Type} (teamStore : TeamStorage σ) (userStore : UserStorage σ)
    (prStore : PullRequestStorage σ) (ctx : Context) (userID : String) (isActive : Bool)
    (st : σ) (tr : List Call) :
    (∀ err st1, userStore.GetUserByID ctx userID st = (.error err, st1) →
      (recordingService teamStore userStore prStore).SetIsActive ctx userID isActive (st, tr)
        = (.error err, (st1, tr ++ [Call.GetUserByID userID]))) ∧
    (∀ user st1 st2, userStore.GetUserByID ctx userID st = (.ok user, st1) →
      userStore.SetIsActive ctx userID isActive st1 = (none, st2) →
      (recordingService teamStore userStore prStore).SetIsActive ctx userID isActive (st, tr)
        = (.ok { ID := user.ID, Name := user.Name, TeamName := user.TeamName,
                 IsActive := isActive },
            (st2, tr ++ [Call.GetUserByID userID, Call.SetIsActive userID isActive]))) := by
  constructor
  · intro err st1 hGet
    simp only [Service.SetIsActive, recordingService, NewService, UserStorage.recording]
    rw [recordCall_eq _ _ st tr _ st1 hGet]
  · intro user st1 st2 hGet hSet
    simp only [Service.SetIsActive, recordingService, NewService, UserStorage.recording]
    rw [recordCall_eq _ _ st tr _ st1 hGet]
    simp only
    rw [recordCall_eq _ _ st1 _ _ st2 hSet]
    simp

/-- Instance of claim C20 on the in-memory store and sample data. -/
theorem setIsActive_spec_witness :
    (memUserStore.GetUserByID Context.Background "nobody" (storeOf ["a1", "a2"] [])
        = (.error Err.ErrNotFound, storeOf ["a1", "a2"] []) ∧
      (recordingService memTeamStore memUserStore memPRStore).SetIsActive Context.Background
          "nobody" false (storeOf ["a1", "a2"] [], [])
        = (.error Err.ErrNotFound, (storeOf ["a1", "a2"] [], [Call.GetUserByID "nobody"]))) ∧
    (memUserStore.GetUserByID Context.Background "a2" (storeOf ["a1", "a2"] [])
        = (.ok (member "a2"), storeOf ["a1", "a2"] []) ∧
      memUserStore.SetIsActive Context.Background "a2" false (storeOf ["a1", "a2"] [])
        = (none, { storeOf ["a1", "a2"] [] with
            users := [member "a1", { member "a2" with IsActive := false }] }) ∧
      (recordingService memTeamStore memUserStore memPRStore).SetIsActive Context.Background
          "a2" false (storeOf ["a1", "a2"] [], [])
        = (.ok { ID := "a2", Name := "a2", TeamName := "team-A", IsActive := false },
            ({ storeOf ["a1", "a2"] [] with
                users := [member "a1", { member "a2" with IsActive := false }] },
              [Call.GetUserByID "a2", Call.SetIsActive "a2" false]))) :=
  ⟨⟨rfl,
      (setIsActive_spec memTeamStore memUserStore memPRStore Context.Background "nobody"
        false (storeOf ["a1", "a2"] []) []).1 Err.ErrNotFound (storeOf ["a1", "a2"] []) rfl⟩,
    ⟨rfl, rfl,
      (setIsActive_spec memTeamStore memUserStore memPRStore Context.Background "a2" false
        (storeOf ["a1", "a2"] []) []).2 (member "a2") (storeOf ["a1", "a2"] [])
        { storeOf ["a1", "a2"] [] with
          users := [member "a1", { member "a2" with IsActive := false }] } rfl rfl⟩⟩

/-- Claim C22 as stated fails: the team-already-exists kind gets the bad-request status
400, not the conflict status 409. -/
theorem mappingDomainErrors_team_exists_status :
    (mappingDomainErrors Err.ErrTeamExists).1 = 400 ∧
    (mappingDomainErrors Err.ErrTeamExists).1 ≠ StatusConflict ∧
    (mappingDomainErrors Err.ErrTeamExists).2.Error.Code = "TEAM_EXISTS" := by
  decide

/-- Claim C22, amended. `mappingDomainErrors` sends the six domain errors to six
pairwise different codes, none of them `INTERNAL`; every error that matches none of
the six gets `INTERNAL` with status 500; the not-found kind gets 404, the
PR-already-exists, already-merged, not-assigned and no-candidate kinds get 409, and the
team-already-exists kind gets 400. -/
theorem mappingDomainErrors_codes :
    (domainErrors.map (fun e => (mappingDomainErrors e).2.Error.Code)).Nodup ∧
    (∀ e ∈ domainErrors, (mappingDomainErrors e).2.Error.Code ≠ "INTERNAL") ∧
    (∀ err : Err, (∀ e ∈ domainErrors, errorsIs err e = false) →
      (mappingDomainErrors err).1 = 500 ∧
      (mappingDomainErrors err).2.Error.Code = "INTERNAL") ∧
    (mappingDomainErrors Err.ErrNotFound).1 = 404 ∧
    (mappingDomainErrors Err.ErrPRExists).1 = 409 ∧
    (mappingDomainErrors Err.ErrPRMerged).1 = 409 ∧
    (mappingDomainErrors Err.ErrNotAssigned).1 = 409 ∧
    (mappingDomainErrors Err.ErrNoCandidate).1 = 409 ∧
    (mappingDomainErrors Err.ErrTeamExists).1 = 400 := by
  refine ⟨by decide, by decide, ?_, by decide, by decide, by decide, by decide, by decide,
    by decide⟩
  intro err h
  have h1 := h Err.ErrTeamExists (by decide)
  have h2 := h Err.ErrPRExists (by decide)
  have h3 := h Err.ErrPRMerged (by decide)
  have h4 := h Err.ErrNotAssigned (by decide)
  have h5 := h Err.ErrNoCandidate (by decide)
  have h6 := h Err.ErrNotFound (by decide)
  simp only [mappingDomainErrors, mappingSwitch, h1, h2, h3, h4, h5, h6]
  decide

/-- Instance of claim C22 as amended: a driver error and a wrapped driver error match
none of the six domain errors and get `INTERNAL` with status 500. -/
theorem mappingDomainErrors_codes_witness :
    (∀ e ∈ domainErrors, errorsIs (Err.pgError "23505") e = false) ∧
    (mappingDomainErrors (Err.pgError "23505")).1 = 500 ∧
    (mappingDomainErrors (Err.pgError "23505")).2.Error.Code = "INTERNAL" ∧
    (∀ e ∈ domainErrors,
      errorsIs (Err.wrapped "create team" (Err.other "connection refused")) e = false) ∧
    (mappingDomainErrors (Err.wrapped "create team" (Err.other "connection refused"))).1
      = 500 :=
  ⟨by decide,
    (mappingDomainErrors_codes.2.2.1 (Err.pgError "23505") (by decide)).1,
    (mappingDomainErrors_codes.2.2.1 (Err.pgError "23505") (by decide)).2,
    by decide,
    (mappingDomainErrors_codes.2.2.1
      (Err.wrapped "create team" (Err.other "connection refused")) (by decide)).1⟩

end Avito
